import Mathlib

/-!
Verification development for the cesium-draw snapping-and-transactional-edit
engine.  JavaScript numbers are idealized as exact rationals (`ℚ`); calls into
the external Cesium library (screen projection, geodetic conversion,
`Math.hypot`) are modelled as explicit function parameters, mirroring the
collaborator contracts of the design.  Every definition is translated from the
TypeScript source files of the repository; the file/line of origin is recorded
next to each definition.
-/

namespace CesiumDraw

/-- Screen-space point (`Cesium.Cartesian2`): a pair of JS numbers. -/
structure Cartesian2 where
  x : ℚ
  y : ℚ
deriving DecidableEq, Repr

/-- World-space point (`Cesium.Cartesian3`): a triple of JS numbers. -/
structure Cartesian3 where
  x : ℚ
  y : ℚ
  z : ℚ
deriving DecidableEq, Repr

/-- Componentwise difference, `Cesium.Cartesian3.subtract`. -/
def Cartesian3.sub (a b : Cartesian3) : Cartesian3 :=
  ⟨a.x - b.x, a.y - b.y, a.z - b.z⟩

/-- Componentwise sum, `Cesium.Cartesian3.add`. -/
def Cartesian3.add (a b : Cartesian3) : Cartesian3 :=
  ⟨a.x + b.x, a.y + b.y, a.z + b.z⟩

/-- Dot product, `Cesium.Cartesian3.dot`. -/
def Cartesian3.dot (a b : Cartesian3) : ℚ :=
  a.x * b.x + a.y * b.y + a.z * b.z

/-- Scalar multiple, `Cesium.Cartesian3.multiplyByScalar`. -/
def Cartesian3.multiplyByScalar (a : Cartesian3) (t : ℚ) : Cartesian3 :=
  ⟨a.x * t, a.y * t, a.z * t⟩

/-- Midpoint of two world points, `Cesium.Cartesian3.midpoint`. -/
def Cartesian3.midpoint (a b : Cartesian3) : Cartesian3 :=
  ⟨(a.x + b.x) / 2, (a.y + b.y) / 2, (a.z + b.z) / 2⟩

/-- Squared Euclidean distance between two world points.  The source compares
`Cesium.Cartesian3.distance a b ≤ t`; for `t ≥ 0` this is equivalent to
`distanceSquared a b ≤ t ^ 2`, which is how every comparison against a distance
is encoded here (the square root itself is never materialized). -/
def Cartesian3.distanceSquared (a b : Cartesian3) : ℚ :=
  (a.x - b.x) ^ 2 + (a.y - b.y) ^ 2 + (a.z - b.z) ^ 2

/-! ## Geometry math (`src/viewer/snap/math.ts`, bundled in SnapIndicator.ts) -/

/-- Result record of `distancePointToSegment2D`: `{ dist, t, proj }`. -/
structure Seg2D where
  dist : ℚ
  t : ℚ
  proj : Cartesian2
deriving DecidableEq, Repr

/-- `distancePointToSegment2D` from `src/viewer/snap/math.ts` (lines 113-141).
`hyp` stands for the external `Math.hypot` primitive: the returned distance is
`hyp dx dy`; the branch structure (endpoint clamping, division by the squared
segment length only on the interior branch) is translated verbatim. -/
def distancePointToSegment2D (hyp : ℚ → ℚ → ℚ) (p a b : Cartesian2) : Seg2D :=
  let vx := b.x - a.x
  let vy := b.y - a.y
  let wx := p.x - a.x
  let wy := p.y - a.y
  let c1 := vx * wx + vy * wy
  if c1 ≤ 0 then
    { dist := hyp (p.x - a.x) (p.y - a.y), t := 0, proj := a }
  else
    let c2 := vx * vx + vy * vy
    if c2 ≤ c1 then
      { dist := hyp (p.x - b.x) (p.y - b.y), t := 1, proj := b }
    else
      let t := c1 / c2
      let px := a.x + t * vx
      let py := a.y + t * vy
      { dist := hyp (p.x - px) (p.y - py), t := t, proj := ⟨px, py⟩ }

/-- Result record of `closestPointOnSegment3D`: `{ point, t }`. -/
structure Seg3D where
  point : Cartesian3
  t : ℚ
deriving DecidableEq, Repr

/-- `closestPointOnSegment3D` from `src/viewer/snap/math.ts` (lines 143-163).
The JS literal `1e-12` is the exact rational `1 / 10 ^ 12` here. -/
def closestPointOnSegment3D (p a b : Cartesian3) : Seg3D :=
  let ab := b.sub a
  let ap := p.sub a
  let ab2 := ab.dot ab
  if ab2 ≤ 1 / 10 ^ 12 then
    { point := a, t := 0 }
  else
    let t0 := ap.dot ab / ab2
    let t1 := max 0 (min 1 t0)
    { point := a.add (ab.multiplyByScalar t1), t := t1 }

/-! ## Feature data model (`src/features/types.ts`) -/

/-- The `kind` tag of a feature: `"point" | "polyline" | "polygon"`. -/
inductive FeatureKind where
  | point
  | polyline
  | polygon
deriving DecidableEq, Repr

/-- Feature geometry.  In the source, `feature.kind` and the shape of
`feature.geometry` are kept consistent by every constructor; here the two are
fused into one tagged union. -/
inductive FeatGeometry where
  | point (position : Cartesian3)
  | polylineGeom (positions : List Cartesian3)
  | polygonGeom (positions : List Cartesian3)
deriving DecidableEq, Repr

/-- Kind tag carried by a geometry. -/
def FeatGeometry.kind : FeatGeometry → FeatureKind
  | .point _ => .point
  | .polylineGeom _ => .polyline
  | .polygonGeom _ => .polygon

/-- Feature metadata `{ name?, createdAt?, updatedAt? }`. -/
structure FeatureMeta where
  name : Option String
  createdAt : Option Int
  updatedAt : Option Int
deriving DecidableEq, Repr

/-- A feature record (id + kind/geometry + optional meta; the free-form
`properties` bag carries no geometry and is elided). -/
structure Feature where
  id : String
  geometry : FeatGeometry
  meta : Option FeatureMeta
deriving DecidableEq, Repr

/-- `feature.kind`. -/
def Feature.kind (f : Feature) : FeatureKind := f.geometry.kind

/-- `snapshotFeature` from `src/features/commands.ts` (lines 225-242): a deep
clone preserving `Cartesian3`.  On immutable values a clone is the value
itself; the definition rebuilds the record the way the source does. -/
def snapshotFeature (f : Feature) : Feature :=
  match f.geometry with
  | .point p => { f with geometry := .point p }
  | .polylineGeom ps => { f with geometry := .polylineGeom (ps.map id) }
  | .polygonGeom ps => { f with geometry := .polygonGeom (ps.map id) }

theorem snapshotFeature_eq (f : Feature) : snapshotFeature f = f := by
  cases hf : f.geometry <;> simp [snapshotFeature, hf] <;>
    cases f <;> simp_all

/-! ## Feature store (`src/features/store.ts`)

`FeatureStore` wraps a JS `Map` from id to feature.  A `Map` preserves
insertion order, `set` on an existing key keeps its position, and a new key is
appended; the association-list model below reproduces exactly that. -/

/-- The store contents: features in insertion order, ids unique. -/
abbrev Store := List Feature

/-- `FeatureStore.get` (`store.ts` line 56). -/
def storeGet (st : Store) (id : String) : Option Feature :=
  st.find? (fun f => f.id == id)

/-- `FeatureStore.upsert` (`store.ts` line 82): `Map.set`. -/
def storeUpsert (st : Store) (f : Feature) : Store :=
  if st.any (fun g => g.id == f.id) then
    st.map (fun g => if g.id == f.id then f else g)
  else
    st ++ [f]

/-- `FeatureStore.remove` (`store.ts` line 93): `Map.delete`. -/
def storeRemove (st : Store) (id : String) : Store :=
  st.filter (fun g => g.id != id)

/-- `FeatureStore.getPolygon` (`store.ts` line 72): lookup plus kind check;
returns the feature together with its ring. -/
def storeGetPolygon (st : Store) (id : String) : Option (Feature × List Cartesian3) :=
  match storeGet st id with
  | some f =>
    match f.geometry with
    | .polygonGeom ps => some (f, ps)
    | _ => none
  | none => none

/-- `FeatureStore.getPolyline` (`store.ts` line 66). -/
def storeGetPolyline (st : Store) (id : String) : Option (Feature × List Cartesian3) :=
  match storeGet st id with
  | some f =>
    match f.geometry with
    | .polylineGeom ps => some (f, ps)
    | _ => none
  | none => none

/-- Reading back the value just upserted. -/
theorem storeGet_upsert_self (st : Store) (f : Feature) :
    storeGet (storeUpsert st f) f.id = some f := by
  unfold storeGet storeUpsert
  by_cases h : st.any (fun g => g.id == f.id)
  · simp only [h, if_true]
    induction st with
    | nil => simp at h
    | cons g gs ih =>
      by_cases hg : g.id == f.id
      · simp [List.find?, hg]
      · simp only [List.any_cons, Bool.or_eq_true] at h
        rcases h with h | h
        · exact absurd h hg
        · simpa [List.find?, hg] using ih h
  · simp only [h, if_false]
    induction st with
    | nil => simp [List.find?]
    | cons g gs ih =>
      simp only [List.any_cons, Bool.or_eq_true, not_or] at h
      simp only [List.cons_append, List.find?]
      rw [Bool.of_not_eq_true h.1]
      exact ih h.2

/-- Replacing every entry whose id matches `f.id` by `f` is the identity when
the store already holds `f` under that id and ids are unique. -/
theorem map_replace_of_get : ∀ (st : Store) (f : Feature),
    (st.map Feature.id).Nodup → storeGet st f.id = some f →
    st.map (fun g => if g.id == f.id then f else g) = st := by
  intro st f hnodup hget
  induction st with
  | nil => simp [storeGet] at hget
  | cons g gs ih =>
    simp only [List.map_cons, List.nodup_cons] at hnodup
    by_cases hg : g.id == f.id
    · simp only [storeGet, List.find?, hg] at hget
      simp only [Option.some.injEq] at hget
      subst hget
      simp only [List.map_cons, hg, if_true, List.cons.injEq, true_and]
      have hx : ∀ x ∈ gs, (if x.id == g.id then g else x) = x := by
        intro x hxmem
        have hne : x.id ≠ g.id := by
          intro hxg
          exact hnodup.1 (hxg ▸ List.mem_map_of_mem Feature.id hxmem)
        simp [hne]
      calc gs.map (fun x => if x.id == g.id then g else x)
          = gs.map id := List.map_congr_left (by simpa using hx)
        _ = gs := List.map_id gs
    · have hgoal : (if (g.id == f.id) = true then f else g) = g := if_neg hg
      simp only [storeGet, List.find?] at hget
      rw [Bool.of_not_eq_true hg] at hget
      simp only [List.map_cons, hgoal, List.cons.injEq, true_and]
      exact ih hnodup.2 hget

/-- Upserting the value the store already holds is a no-op, provided ids are
unique (as they are in a JS `Map`). -/
theorem storeUpsert_of_get (st : Store) (f : Feature)
    (hnodup : (st.map Feature.id).Nodup)
    (hget : storeGet st f.id = some f) :
    storeUpsert st f = st := by
  have hmem : f ∈ st ∧ (f.id == f.id) = true := by
    unfold storeGet at hget
    exact ⟨List.mem_of_find?_eq_some hget, by simp⟩
  have hany : st.any (fun g => g.id == f.id) = true :=
    List.any_eq_true.mpr ⟨f, hmem.1, hmem.2⟩
  unfold storeUpsert
  rw [if_pos hany]
  exact map_replace_of_get st f hnodup hget

/-! ## Geometry validation -/

/-- `validatePointPosition` from `src/features/validation/point.ts`.
`isFin` stands for the JS primitive `Number.isFinite` on the idealized
scalar (in `ℚ` every value is finite, but the source's check is kept
explicit so that the non-finite rejection path remains representable). -/
def validatePointPosition (isFin : ℚ → Bool) (position : Option Cartesian3) : Option String :=
  match position with
  | none => some "点位无效。"
  | some p =>
    if !(isFin p.x) || !(isFin p.y) || !(isFin p.z) then some "点位坐标无效。"
    else none

/-- `CesiumMath.equalsEpsilon` (external Cesium, documented semantics):
`|a − b| ≤ absEps ∨ |a − b| ≤ relEps * max |a| |b|`. -/
def mathEqualsEpsilon (a b relEps absEps : ℚ) : Bool :=
  decide (|a - b| ≤ absEps) || decide (|a - b| ≤ relEps * max |a| |b|)

/-- `Cesium.Cartesian3.equalsEpsilon a b relEps` with the absolute epsilon
defaulted to `relEps`, as in the call sites of this repository. -/
def cartesian3EqualsEpsilon (a b : Cartesian3) (relEps : ℚ) : Bool :=
  mathEqualsEpsilon a.x b.x relEps relEps &&
  mathEqualsEpsilon a.y b.y relEps relEps &&
  mathEqualsEpsilon a.z b.z relEps relEps

/-- `validatePolylinePositions` from `src/features/validation/polyline.ts`:
fewer than 2 points, or any adjacent pair equal within `1e-9`, is an error. -/
def validatePolylinePositions (positions : List Cartesian3) : Option String :=
  if positions.length < 2 then some "折线至少需要 2 个点。"
  else if (List.range (positions.length - 1)).any (fun i =>
      cartesian3EqualsEpsilon (positions.getD i ⟨0, 0, 0⟩)
        (positions.getD (i + 1) ⟨0, 0, 0⟩) (1 / 10 ^ 9)) then
    some "折线存在相邻重复点。"
  else none

/-- Issue codes of `src/features/validation/polygon.ts`. -/
inductive IssueCode where
  | TOO_FEW_POINTS
  | SELF_INTERSECTION
  | DUPLICATE_VERTEX
deriving DecidableEq, Repr

/-- A validation issue `{ code, message }` (the free-form debug `details`
payload is elided). -/
structure ValidationIssue where
  code : IssueCode
  message : String
deriving DecidableEq, Repr

/-- Validation result `{ ok, issues }`. -/
structure ValidationResult where
  ok : Bool
  issues : List ValidationIssue
deriving DecidableEq, Repr

/-- `almostEq` from `validation/polygon.ts` (default `eps = 1e-12`). -/
def almostEq (a b : ℚ) : Bool :=
  decide (|a - b| ≤ 1 / 10 ^ 12)

/-- `orient` inside `segIntersect`. -/
def orient (px py qx qy rx ry : ℚ) : ℚ :=
  (qx - px) * (ry - py) - (qy - py) * (rx - px)

/-- Point-on-box test `onSeg` inside `segIntersect`. -/
def onSeg (px py qx qy rx ry : ℚ) : Bool :=
  decide (min px qx ≤ rx) && decide (rx ≤ max px qx) &&
  decide (min py qy ≤ ry) && decide (ry ≤ max py qy)

/-- `segIntersect` from `validation/polygon.ts` (lines 23-48): proper 2D
segment intersection plus collinear touching cases. -/
def segIntersect (a b c d : ℚ × ℚ) : Bool :=
  let o1 := orient a.1 a.2 b.1 b.2 c.1 c.2
  let o2 := orient a.1 a.2 b.1 b.2 d.1 d.2
  let o3 := orient c.1 c.2 d.1 d.2 a.1 a.2
  let o4 := orient c.1 c.2 d.1 d.2 b.1 b.2
  if (decide (o1 > 0) != decide (o2 > 0)) && (decide (o3 > 0) != decide (o4 > 0)) then
    true
  else
    let isZero : ℚ → Bool := fun v => decide (|v| ≤ 1 / 10 ^ 12)
    (isZero o1 && onSeg a.1 a.2 b.1 b.2 c.1 c.2) ||
    (isZero o2 && onSeg a.1 a.2 b.1 b.2 d.1 d.2) ||
    (isZero o3 && onSeg c.1 c.2 d.1 d.2 a.1 a.2) ||
    (isZero o4 && onSeg c.1 c.2 d.1 d.2 b.1 b.2)

/-- The duplicate test of the adjacent-vertex loop at index `i`: the pair
`(pts[i], pts[(i+1) % n])` agrees in both coordinates within `1e-12`. -/
def dupAt (pts : List (ℚ × ℚ)) (i : Nat) : Bool :=
  almostEq (pts.getD i (0, 0)).1 (pts.getD ((i + 1) % pts.length) (0, 0)).1 &&
  almostEq (pts.getD i (0, 0)).2 (pts.getD ((i + 1) % pts.length) (0, 0)).2

/-- Index of the first cyclically-adjacent duplicate pair (the source's
duplicate loop breaks at the first hit). -/
def firstDupIndex (pts : List (ℚ × ℚ)) : Option Nat :=
  (List.range pts.length).find? (dupAt pts)

/-- Ordered pairs `(i, j)` with `i < j < n`, in the iteration order of the
source's double loop. -/
def indexPairs (n : Nat) : List (Nat × Nat) :=
  (List.range n).flatMap (fun i =>
    (List.range (n - i - 1)).map (fun k => (i, i + 1 + k)))

/-- First self-intersecting pair of non-adjacent ring segments, in loop
order (the source returns early at the first hit). -/
def firstIntersection (pts : List (ℚ × ℚ)) : Option (Nat × Nat) :=
  let n := pts.length
  (indexPairs n).find? (fun ij =>
    let i := ij.1
    let j := ij.2
    if (j + 1) % n == i || (i + 1) % n == j then false
    else
      segIntersect (pts.getD i (0, 0)) (pts.getD ((i + 1) % n) (0, 0))
        (pts.getD j (0, 0)) (pts.getD ((j + 1) % n) (0, 0)))

/-- `validatePolygonPositions` from `src/features/validation/polygon.ts`
(lines 50-89).  `toLonLat` stands for the external geodetic conversion
`Cesium.Cartographic.fromCartesian` followed by `toDegrees` on each axis. -/
def validatePolygonPositions (toLonLat : Cartesian3 → ℚ × ℚ)
    (positions : List Cartesian3) : ValidationResult :=
  if positions.length < 3 then
    { ok := false, issues := [⟨.TOO_FEW_POINTS, "多边形至少需要 3 个点。"⟩] }
  else
    let pts := positions.map toLonLat
    let dupIssues : List ValidationIssue :=
      match firstDupIndex pts with
      | some _ => [⟨.DUPLICATE_VERTEX, "存在重复顶点（相邻点重合）。"⟩]
      | none => []
    match firstIntersection pts with
    | some _ =>
      { ok := false,
        issues := dupIssues ++ [⟨.SELF_INTERSECTION, "多边形存在自相交（蝴蝶形/交叉边）。"⟩] }
    | none => { ok := dupIssues.isEmpty, issues := dupIssues }

/-! ## Spatial hash index (`src/features/spatial/FeatureSpatialIndex.ts`,
bundled in `src/features/types.ts` lines 48-258) -/

/-- `IndexedVertex { featureId, vertexIndex, position }`. -/
structure IndexedVertex where
  featureId : String
  vertexIndex : Nat
  position : Cartesian3
deriving DecidableEq, Repr

/-- `IndexedEdge { featureId, edgeStartIndex, a, b }`. -/
structure IndexedEdge where
  featureId : String
  edgeStartIndex : Nat
  a : Cartesian3
  b : Cartesian3
deriving DecidableEq, Repr

/-- Cell key.  The source hashes to the string `"cx,cy,cz"`; the encoding is
injective on the integer triple, so the triple itself is used here. -/
abbrev CellKey := ℤ × ℤ × ℤ

/-- `SpatialQueryResult { vertices, edges }`. -/
structure SpatialQueryResult where
  vertices : List IndexedVertex
  edges : List IndexedEdge
deriving DecidableEq, Repr

/-- State of a `FeatureSpatialIndex`.  A JS `Map` from cell key to a list is
modelled as a total function defaulting to `[]` (the source deletes a key
whenever its list becomes empty, and treats a missing key as empty on read,
so the two representations are observationally identical).  Likewise for the
per-feature entry registries. -/
structure FeatureSpatialIndex where
  cellSize : ℚ
  vertexCells : CellKey → List IndexedVertex
  edgeCells : CellKey → List IndexedEdge
  verticesByFeature : String → List IndexedVertex
  edgesByFeature : String → List IndexedEdge

/-- `toCell` (lines 227-234): componentwise `Math.floor(p / cellSize)`. -/
def toCell (cs : ℚ) (p : Cartesian3) : CellKey :=
  (⌊p.x / cs⌋, ⌊p.y / cs⌋, ⌊p.z / cs⌋)

/-- `addToCells` (lines 240-246): push at the end of the list of the cell the
representative point hashes to. -/
def addToCells {τ : Type} (cs : ℚ) (cells : CellKey → List τ) (p : Cartesian3) (v : τ) :
    CellKey → List τ :=
  fun k => if k = toCell cs p then cells k ++ [v] else cells k

/-- `removeFromCells` (lines 248-257): `indexOf` + `splice`, i.e. remove the
first occurrence from the recorded cell. -/
def removeFromCells {τ : Type} [DecidableEq τ] (cs : ℚ) (cells : CellKey → List τ)
    (p : Cartesian3) (v : τ) : CellKey → List τ :=
  fun k => if k = toCell cs p then (cells k).erase v else cells k

/-- Constructor clamp (line 93) on an empty index.  The initial population
from `store.all()` and the event subscription are sequences of `upsert`
calls, covered by `IndexReachable.upsert`. -/
def FeatureSpatialIndex.emptyIndex (cellSizeMeters : ℚ) : FeatureSpatialIndex :=
  { cellSize := max 1 (min 10000 cellSizeMeters)
    vertexCells := fun _ => []
    edgeCells := fun _ => []
    verticesByFeature := fun _ => []
    edgesByFeature := fun _ => [] }

/-- `clear` (lines 110-115). -/
def FeatureSpatialIndex.clear (idx : FeatureSpatialIndex) : FeatureSpatialIndex :=
  { idx with
    vertexCells := fun _ => []
    edgeCells := fun _ => []
    verticesByFeature := fun _ => []
    edgesByFeature := fun _ => [] }

/-- `remove` (lines 117-129). -/
def FeatureSpatialIndex.remove (idx : FeatureSpatialIndex) (featureId : String) :
    FeatureSpatialIndex :=
  let vs := idx.verticesByFeature featureId
  let es := idx.edgesByFeature featureId
  { idx with
    vertexCells :=
      vs.foldl (fun c v => removeFromCells idx.cellSize c v.position v) idx.vertexCells
    edgeCells :=
      es.foldl (fun c e => removeFromCells idx.cellSize c (e.a.midpoint e.b) e) idx.edgeCells
    verticesByFeature := fun id0 => if id0 = featureId then [] else idx.verticesByFeature id0
    edgesByFeature := fun id0 => if id0 = featureId then [] else idx.edgesByFeature id0 }

/-- `getPositions` (lines 220-225). -/
def Feature.indexPositions (f : Feature) : List Cartesian3 :=
  match f.geometry with
  | .point p => [p]
  | .polylineGeom ps => ps
  | .polygonGeom ps => ps

/-- The vertex entries built by `upsert` (lines 141-149): one entry per
position, indexed in order. -/
def buildVertices (f : Feature) : List IndexedVertex :=
  f.indexPositions.enum.map (fun ip => ⟨f.id, ip.1, ip.2⟩)

/-- The edge entries built by `upsert` (lines 151-182): consecutive pairs for
polylines, wrapping pairs for polygons, none for points. -/
def buildEdges (f : Feature) : List IndexedEdge :=
  match f.geometry with
  | .point _ => []
  | .polylineGeom ps =>
    (List.range (ps.length - 1)).map (fun i =>
      ⟨f.id, i, ps.getD i ⟨0, 0, 0⟩, ps.getD (i + 1) ⟨0, 0, 0⟩⟩)
  | .polygonGeom ps =>
    (List.range ps.length).map (fun i =>
      ⟨f.id, i, ps.getD i ⟨0, 0, 0⟩, ps.getD ((i + 1) % ps.length) ⟨0, 0, 0⟩⟩)

/-- `upsert` (lines 131-186): remove the previous entries of the id, then
insert the rebuilt entry lists into their cells and re-register them. -/
def FeatureSpatialIndex.upsert (idx : FeatureSpatialIndex) (f : Feature) :
    FeatureSpatialIndex :=
  let idx0 := idx.remove f.id
  let vs := buildVertices f
  let es := buildEdges f
  { idx0 with
    vertexCells :=
      vs.foldl (fun c v => addToCells idx0.cellSize c v.position v) idx0.vertexCells
    edgeCells :=
      es.foldl (fun c e => addToCells idx0.cellSize c (e.a.midpoint e.b) e) idx0.edgeCells
    verticesByFeature := fun id0 => if id0 = f.id then vs else idx0.verticesByFeature id0
    edgesByFeature := fun id0 => if id0 = f.id then es else idx0.edgesByFeature id0 }

/-- `query` (lines 188-218).  Distance comparisons are encoded on squares
(`distance ≤ t ↔ distanceSquared ≤ t ^ 2` for the nonnegative cutoffs used
here); everything else is verbatim. -/
def FeatureSpatialIndex.query (idx : FeatureSpatialIndex) (worldPos : Cartesian3)
    (radiusMeters : ℚ) : SpatialQueryResult :=
  let cs := idx.cellSize
  let r := max (1 / 10) radiusMeters
  let c := toCell cs worldPos
  let range : ℤ := ⌈r / cs⌉ + 1
  let offsets : List ℤ := (List.range (2 * range + 1).toNat).map (fun i => (i : ℤ) - range)
  let keys : List CellKey :=
    offsets.flatMap (fun dx =>
      offsets.flatMap (fun dy =>
        offsets.map (fun dz => (c.1 + dx, c.2.1 + dy, c.2.2 + dz))))
  let vertices := keys.flatMap (fun k => idx.vertexCells k)
  let edges := keys.flatMap (fun k => idx.edgeCells k)
  let vFiltered := vertices.filter (fun v =>
    decide (Cartesian3.distanceSquared v.position worldPos ≤ r ^ 2))
  let eFiltered := edges.filter (fun e =>
    decide (Cartesian3.distanceSquared (e.a.midpoint e.b) worldPos ≤ (r * (3 / 2)) ^ 2))
  { vertices := vFiltered, edges := eFiltered }

/-- States of the index reachable from construction by any sequence of
`upsert` / `remove` / `clear` calls (the three store events it subscribes
to). -/
inductive IndexReachable : FeatureSpatialIndex → Prop where
  | emptyIndex (cellSizeMeters : ℚ) :
      IndexReachable (FeatureSpatialIndex.emptyIndex cellSizeMeters)
  | upsert {idx : FeatureSpatialIndex} (f : Feature) :
      IndexReachable idx → IndexReachable (idx.upsert f)
  | remove {idx : FeatureSpatialIndex} (featureId : String) :
      IndexReachable idx → IndexReachable (idx.remove featureId)
  | clear {idx : FeatureSpatialIndex} :
      IndexReachable idx → IndexReachable idx.clear

/-- Internal coherence of an index state: every cell entry is placed in the
cell its representative point hashes to, with exactly the multiplicity the
per-feature registry records, and registry entries carry their own key. -/
def IndexInv (idx : FeatureSpatialIndex) : Prop :=
  (∀ (v : IndexedVertex) (k : CellKey),
      (idx.vertexCells k).count v =
        if k = toCell idx.cellSize v.position
        then (idx.verticesByFeature v.featureId).count v else 0) ∧
  (∀ (fid : String) (v : IndexedVertex), v ∈ idx.verticesByFeature fid → v.featureId = fid) ∧
  (∀ (e : IndexedEdge) (k : CellKey),
      (idx.edgeCells k).count e =
        if k = toCell idx.cellSize (e.a.midpoint e.b)
        then (idx.edgesByFeature e.featureId).count e else 0) ∧
  (∀ (fid : String) (e : IndexedEdge), e ∈ idx.edgesByFeature fid → e.featureId = fid)

/-- Multiplicity after a fold of `removeFromCells`: each occurrence of `x`
inside the removal worklist erases one copy of `x` from the cell `x` hashes
to, and nothing else. -/
theorem count_foldl_removeFromCells {τ : Type} [DecidableEq τ] (cs : ℚ) (pos : τ → Cartesian3)
    (x : τ) (k : CellKey) :
    ∀ (L : List τ) (cells : CellKey → List τ),
    ((L.foldl (fun c w => removeFromCells cs c (pos w) w) cells) k).count x =
      (cells k).count x - (if k = toCell cs (pos x) then L.count x else 0) := by
  intro L
  induction L with
  | nil => intro cells; simp
  | cons w L ih =>
    intro cells
    rw [List.foldl_cons, ih]
    have hstep : ((removeFromCells cs cells (pos w) w) k).count x =
        (cells k).count x -
          (if k = toCell cs (pos w) then (if (w == x) = true then 1 else 0) else 0) := by
      unfold removeFromCells
      by_cases hw : k = toCell cs (pos w)
      · rw [if_pos hw, if_pos hw, List.count_erase]
      · rw [if_neg hw, if_neg hw, Nat.sub_zero]
    rw [hstep, List.count_cons]
    by_cases hwx : (w == x) = true
    · have hxw : x = w := (eq_of_beq hwx).symm
      subst hxw
      by_cases hx : k = toCell cs (pos x)
      · simp only [hx, if_true, hwx]
        omega
      · simp only [hx, if_false, hwx]
        omega
    · by_cases hx : k = toCell cs (pos x)
      · simp only [hx, if_true, hwx, if_false]
        by_cases hw : k = toCell cs (pos w) <;> simp [hw, hx]
      · simp only [hx, if_false, hwx]
        by_cases hw : k = toCell cs (pos w) <;> simp [hw, hx, hwx]

/-- Multiplicity after a fold of `addToCells`: each occurrence of `x` inside
the insertion worklist appends one copy of `x` to the cell `x` hashes to. -/
theorem count_foldl_addToCells {τ : Type} [DecidableEq τ] (cs : ℚ) (pos : τ → Cartesian3)
    (x : τ) (k : CellKey) :
    ∀ (L : List τ) (cells : CellKey → List τ),
    ((L.foldl (fun c w => addToCells cs c (pos w) w) cells) k).count x =
      (cells k).count x + (if k = toCell cs (pos x) then L.count x else 0) := by
  intro L
  induction L with
  | nil => intro cells; simp
  | cons w L ih =>
    intro cells
    rw [List.foldl_cons, ih]
    have hstep : ((addToCells cs cells (pos w) w) k).count x =
        (cells k).count x +
          (if k = toCell cs (pos w) then (if (w == x) = true then 1 else 0) else 0) := by
      unfold addToCells
      by_cases hw : k = toCell cs (pos w)
      · rw [if_pos hw, if_pos hw, List.count_append, List.count_singleton]
      · rw [if_neg hw, if_neg hw, Nat.add_zero]
    rw [hstep, List.count_cons]
    by_cases hwx : (w == x) = true
    · have hxw : x = w := (eq_of_beq hwx).symm
      subst hxw
      by_cases hx : k = toCell cs (pos x)
      · simp only [hx, if_true, hwx]
        omega
      · simp only [hx, if_false, hwx]
        try omega
    · by_cases hx : k = toCell cs (pos x)
      · simp only [hx, if_true, hwx, if_false]
        by_cases hw : k = toCell cs (pos w) <;> simp [hw, hx]
      · simp only [hx, if_false, hwx]
        by_cases hw : k = toCell cs (pos w) <;> simp [hw, hx, hwx]

theorem indexInv_emptyIndex (cs : ℚ) : IndexInv (FeatureSpatialIndex.emptyIndex cs) := by
  refine ⟨?_, ?_, ?_, ?_⟩ <;> intro a b <;> simp [FeatureSpatialIndex.emptyIndex]

theorem indexInv_clear (idx : FeatureSpatialIndex) : IndexInv idx.clear := by
  refine ⟨?_, ?_, ?_, ?_⟩ <;> intro a b <;> simp [FeatureSpatialIndex.clear]

theorem indexInv_remove (idx : FeatureSpatialIndex) (fid : String) (h : IndexInv idx) :
    IndexInv (idx.remove fid) := by
  obtain ⟨hvc, hvf, hec, hef⟩ := h
  refine ⟨?_, ?_, ?_, ?_⟩
  · intro v k
    have hfold := count_foldl_removeFromCells idx.cellSize IndexedVertex.position v k
      (idx.verticesByFeature fid) idx.vertexCells
    show ((idx.verticesByFeature fid).foldl _ idx.vertexCells k).count v = _
    rw [hfold, hvc v k]
    by_cases hvfid : v.featureId = fid
    · subst hvfid
      by_cases hk : k = toCell idx.cellSize v.position
      · simp [FeatureSpatialIndex.remove, hk]
      · simp [FeatureSpatialIndex.remove, hk]
    · have hz : List.count v (idx.verticesByFeature fid) = 0 :=
        List.count_eq_zero_of_not_mem (fun hmem => hvfid (hvf fid v hmem))
      rw [hz]
      simp only [Nat.sub_zero, ite_self]
      by_cases hk : k = toCell idx.cellSize v.position
      · simp [FeatureSpatialIndex.remove, hk, hvfid]
      · simp [FeatureSpatialIndex.remove, hk]
  · intro fid' v hmem
    by_cases hfid : fid' = fid
    · simp [FeatureSpatialIndex.remove, hfid] at hmem
    · simp only [FeatureSpatialIndex.remove, if_neg hfid] at hmem
      exact hvf fid' v hmem
  · intro e k
    have hfold := count_foldl_removeFromCells idx.cellSize
      (fun e0 => Cartesian3.midpoint e0.a e0.b) e k (idx.edgesByFeature fid) idx.edgeCells
    show ((idx.edgesByFeature fid).foldl _ idx.edgeCells k).count e = _
    rw [hfold, hec e k]
    by_cases hefid : e.featureId = fid
    · subst hefid
      by_cases hk : k = toCell idx.cellSize (e.a.midpoint e.b)
      · simp [FeatureSpatialIndex.remove, hk]
      · simp [FeatureSpatialIndex.remove, hk]
    · have hz : List.count e (idx.edgesByFeature fid) = 0 :=
        List.count_eq_zero_of_not_mem (fun hmem => hefid (hef fid e hmem))
      rw [hz]
      simp only [Nat.sub_zero, ite_self]
      by_cases hk : k = toCell idx.cellSize (e.a.midpoint e.b)
      · simp [FeatureSpatialIndex.remove, hk, hefid]
      · simp [FeatureSpatialIndex.remove, hk]
  · intro fid' e hmem
    by_cases hfid : fid' = fid
    · simp [FeatureSpatialIndex.remove, hfid] at hmem
    · simp only [FeatureSpatialIndex.remove, if_neg hfid] at hmem
      exact hef fid' e hmem

/-- Every vertex entry built for a feature carries that feature's id. -/
theorem buildVertices_featureId (f : Feature) (v : IndexedVertex)
    (hv : v ∈ buildVertices f) : v.featureId = f.id := by
  unfold buildVertices at hv
  obtain ⟨ip, -, hmk⟩ := List.mem_map.mp hv
  rw [← hmk]

/-- Every edge entry built for a feature carries that feature's id. -/
theorem buildEdges_featureId (f : Feature) (e : IndexedEdge)
    (he : e ∈ buildEdges f) : e.featureId = f.id := by
  unfold buildEdges at he
  cases hg : f.geometry with
  | point p =>
    rw [hg] at he
    simp at he
  | polylineGeom ps =>
    rw [hg] at he
    obtain ⟨i, -, hmk⟩ := List.mem_map.mp he
    rw [← hmk]
  | polygonGeom ps =>
    rw [hg] at he
    obtain ⟨i, -, hmk⟩ := List.mem_map.mp he
    rw [← hmk]

theorem indexInv_upsert (idx : FeatureSpatialIndex) (f : Feature) (h : IndexInv idx) :
    IndexInv (idx.upsert f) := by
  obtain ⟨hvc, hvf, hec, hef⟩ := indexInv_remove idx f.id h
  refine ⟨?_, ?_, ?_, ?_⟩
  · intro v k
    have hfold := count_foldl_addToCells (idx.remove f.id).cellSize IndexedVertex.position v k
      (buildVertices f) (idx.remove f.id).vertexCells
    show ((buildVertices f).foldl _ (idx.remove f.id).vertexCells k).count v = _
    rw [hfold, hvc v k]
    by_cases hvfid : v.featureId = f.id
    · have hz : List.count v ((idx.remove f.id).verticesByFeature v.featureId) = 0 := by
        rw [hvfid]
        simp [FeatureSpatialIndex.remove]
      rw [hz]
      simp only [ite_self, Nat.zero_add]
      have hcs : (idx.upsert f).cellSize = (idx.remove f.id).cellSize := rfl
      simp [FeatureSpatialIndex.upsert, hvfid]
    · have hz : List.count v (buildVertices f) = 0 :=
        List.count_eq_zero_of_not_mem (fun hmem => hvfid (buildVertices_featureId f v hmem))
      rw [hz]
      simp only [ite_self, Nat.add_zero]
      simp [FeatureSpatialIndex.upsert, FeatureSpatialIndex.remove, hvfid]
  · intro fid' v hmem
    by_cases hfid : fid' = f.id
    · subst hfid
      simp only [FeatureSpatialIndex.upsert, if_pos rfl] at hmem
      exact buildVertices_featureId f v hmem
    · simp only [FeatureSpatialIndex.upsert, if_neg hfid] at hmem
      exact hvf fid' v hmem
  · intro e k
    have hfold := count_foldl_addToCells (idx.remove f.id).cellSize
      (fun e0 => Cartesian3.midpoint e0.a e0.b) e k (buildEdges f) (idx.remove f.id).edgeCells
    show ((buildEdges f).foldl _ (idx.remove f.id).edgeCells k).count e = _
    rw [hfold, hec e k]
    by_cases hefid : e.featureId = f.id
    · have hz : List.count e ((idx.remove f.id).edgesByFeature e.featureId) = 0 := by
        rw [hefid]
        simp [FeatureSpatialIndex.remove]
      rw [hz]
      simp only [ite_self, Nat.zero_add]
      simp [FeatureSpatialIndex.upsert, hefid]
    · have hz : List.count e (buildEdges f) = 0 :=
        List.count_eq_zero_of_not_mem (fun hmem => hefid (buildEdges_featureId f e hmem))
      rw [hz]
      simp only [ite_self, Nat.add_zero]
      simp [FeatureSpatialIndex.upsert, FeatureSpatialIndex.remove, hefid]
  · intro fid' e hmem
    by_cases hfid : fid' = f.id
    · subst hfid
      simp only [FeatureSpatialIndex.upsert, if_pos rfl] at hmem
      exact buildEdges_featureId f e hmem
    · simp only [FeatureSpatialIndex.upsert, if_neg hfid] at hmem
      exact hef fid' e hmem

/-- The coherence invariant holds in every reachable index state. -/
theorem indexInv_of_reachable {idx : FeatureSpatialIndex} (h : IndexReachable idx) :
    IndexInv idx := by
  induction h with
  | emptyIndex cs => exact indexInv_emptyIndex cs
  | upsert f _ ih => exact indexInv_upsert _ f ih
  | remove fid _ ih => exact indexInv_remove _ fid ih
  | clear _ ih => exact indexInv_clear _

/-- C3: after any sequence of `upsert` / `remove` / `clear` calls on the
spatial index, every vertex and every edge returned by `query` is a member of
the index's current entry list for its own feature id.  In particular no
entry of a removed feature, and no entry surviving from an earlier version of
a re-upserted feature, is ever returned: `remove` empties the registry for
that id, and `upsert` replaces it with the freshly built entries. -/
theorem spatialIndex_query_sound (idx : FeatureSpatialIndex) (h : IndexReachable idx)
    (worldPos : Cartesian3) (radius : ℚ) :
    (∀ v ∈ (idx.query worldPos radius).vertices, v ∈ idx.verticesByFeature v.featureId) ∧
    (∀ e ∈ (idx.query worldPos radius).edges, e ∈ idx.edgesByFeature e.featureId) := by
  obtain ⟨hvc, hvf, hec, hef⟩ := indexInv_of_reachable h
  constructor
  · intro v hv
    simp only [FeatureSpatialIndex.query, List.mem_filter, List.mem_flatMap] at hv
    obtain ⟨⟨k, -, hvk⟩, -⟩ := hv
    have hpos : 0 < List.count v (idx.vertexCells k) := List.count_pos_iff.mpr hvk
    rw [hvc v k] at hpos
    by_cases hk : k = toCell idx.cellSize v.position
    · rw [if_pos hk] at hpos
      exact List.count_pos_iff.mp hpos
    · rw [if_neg hk] at hpos
      exact absurd hpos (by simp)
  · intro e he
    simp only [FeatureSpatialIndex.query, List.mem_filter, List.mem_flatMap] at he
    obtain ⟨⟨k, -, hek⟩, -⟩ := he
    have hpos : 0 < List.count e (idx.edgeCells k) := List.count_pos_iff.mpr hek
    rw [hec e k] at hpos
    by_cases hk : k = toCell idx.cellSize (e.a.midpoint e.b)
    · rw [if_pos hk] at hpos
      exact List.count_pos_iff.mp hpos
    · rw [if_neg hk] at hpos
      exact absurd hpos (by simp)

/-- A concrete point feature used by the index witness. -/
def fW : Feature :=
  { id := "a", geometry := .point ⟨0, 0, 0⟩, meta := none }

/-- A concrete reachable index state: one upsert into a fresh index. -/
def idxW : FeatureSpatialIndex :=
  (FeatureSpatialIndex.emptyIndex 50).upsert fW

theorem spatialIndex_query_sound_witness :
    IndexReachable idxW ∧
    (∀ v ∈ (idxW.query ⟨0, 0, 0⟩ 5).vertices, v ∈ idxW.verticesByFeature v.featureId) ∧
    (∀ e ∈ (idxW.query ⟨0, 0, 0⟩ 5).edges, e ∈ idxW.edgesByFeature e.featureId) := by
  have hreach : IndexReachable idxW :=
    IndexReachable.upsert fW (IndexReachable.emptyIndex 50)
  exact ⟨hreach, spatialIndex_query_sound idxW hreach ⟨0, 0, 0⟩ 5⟩

/-! ## Snapping engine (`src/viewer/snap/SnappingEngine.ts`, i.e. the
spatial-index revision in `src/unnamed/part_005` lines 1-282, plus the
shared types in `src/viewer/snap/SnapTypes.ts`) -/

/-- `SnapType`. -/
inductive SnapType where
  | vertex
  | midpoint
  | edge
  | grid
deriving DecidableEq, Repr

/-- `SnapTypesEnabled`. -/
structure SnapTypesEnabled where
  vertex : Bool
  midpoint : Bool
  edge : Bool
  grid : Bool
deriving DecidableEq, Repr

/-- `SnapSourcesEnabled`. -/
structure SnapSourcesEnabled where
  polygons : Bool
  grid : Bool
deriving DecidableEq, Repr

/-- `SnapPriority`: one numeric weight per type. -/
structure SnapPriority where
  vertex : ℚ
  midpoint : ℚ
  edge : ℚ
  grid : ℚ
deriving DecidableEq, Repr

/-- `defaultSnapTypes()`. -/
def defaultSnapTypes : SnapTypesEnabled :=
  { vertex := true, midpoint := true, edge := true, grid := false }

/-- `defaultSnapSources()`. -/
def defaultSnapSources : SnapSourcesEnabled :=
  { polygons := true, grid := false }

/-- `defaultSnapPriority()`. -/
def defaultSnapPriority : SnapPriority :=
  { vertex := 100, midpoint := 80, edge := 60, grid := 40 }

/-- `SnapCandidate.meta`. -/
structure SnapMeta where
  ownerId : Option String
  edgeStartIndex : Option Nat
  vertexIndex : Option Nat
deriving DecidableEq, Repr

/-- `SnapCandidate`. -/
structure SnapCandidate where
  type : SnapType
  position : Cartesian3
  distancePx : ℚ
  priority : ℚ
  meta : Option SnapMeta
deriving DecidableEq, Repr

/-- `SnapResult`. -/
structure SnapResult where
  candidate : SnapCandidate
deriving DecidableEq, Repr

/-- `SnapQueryOptions`. -/
structure SnapQueryOptions where
  excludeOwnerId : Option String := none
  excludeIndex : Option Nat := none
deriving DecidableEq, Repr

/-- Mutable engine configuration (fields of `SnappingEngine` after the
clamping setters). -/
structure SnappingConfig where
  thresholdPx : ℚ
  types : SnapTypesEnabled
  sources : SnapSourcesEnabled
  priority : SnapPriority
  gridSizeMeters : ℚ
deriving DecidableEq, Repr

/-- External collaborators of the engine: `scene.cartesianToCanvasCoordinates`
(may fail, e.g. behind the camera), `Math.hypot`, `metersPerPixelAt` for the
current query position, and `cartographicSnapToGrid` (which is geodetic and
goes through the external ellipsoid conversions). -/
structure SnapEnv where
  toScreen : Cartesian3 → Option Cartesian2
  hyp : ℚ → ℚ → ℚ
  metersPerPixel : ℚ
  gridSnap : ℚ → Cartesian3 → Cartesian3

/-- JS truthiness of an optional string: `undefined`, `null` and `""` are
falsy. -/
def truthyStr : Option String → Bool
  | none => false
  | some s => s != ""

/-- Candidate emitted for one indexed vertex (part_005 lines 86-108),
including the exclusion rule: when the owner id is truthy and matches, the
vertex is skipped if no exclude index was given (whole feature excluded) or
if it is exactly the excluded index. -/
def vertexCandidate (env : SnapEnv) (cfg : SnappingConfig) (cursor : Cartesian2)
    (q : SnapQueryOptions) (v : IndexedVertex) : List SnapCandidate :=
  if truthyStr q.excludeOwnerId = true ∧ q.excludeOwnerId = some v.featureId ∧
      (q.excludeIndex = none ∨ q.excludeIndex = some v.vertexIndex) then []
  else if cfg.types.vertex then
    match env.toScreen v.position with
    | some sp =>
      let d := env.hyp (sp.x - cursor.x) (sp.y - cursor.y)
      if d ≤ cfg.thresholdPx then
        [{ type := .vertex, position := v.position, distancePx := d,
           priority := cfg.priority.vertex,
           meta := some ⟨some v.featureId, none, some v.vertexIndex⟩ }]
      else []
    | none => []
  else []

/-- Candidates emitted for one indexed edge (part_005 lines 112-153): the
whole edge is skipped when the owner id is truthy, matches, and no exclude
index was given; otherwise a midpoint candidate and an edge candidate are
threshold-tested independently. -/
def edgeCandidates (env : SnapEnv) (cfg : SnappingConfig) (world : Cartesian3)
    (cursor : Cartesian2) (q : SnapQueryOptions) (e : IndexedEdge) : List SnapCandidate :=
  if truthyStr q.excludeOwnerId = true ∧ q.excludeOwnerId = some e.featureId ∧
      q.excludeIndex = none then []
  else
    let midCands : List SnapCandidate :=
      if cfg.types.midpoint then
        let mid := e.a.midpoint e.b
        match env.toScreen mid with
        | some sp =>
          let d := env.hyp (sp.x - cursor.x) (sp.y - cursor.y)
          if d ≤ cfg.thresholdPx then
            [{ type := .midpoint, position := mid, distancePx := d,
               priority := cfg.priority.midpoint,
               meta := some ⟨some e.featureId, some e.edgeStartIndex, none⟩ }]
          else []
        | none => []
      else []
    let edgeCands : List SnapCandidate :=
      if cfg.types.edge then
        match env.toScreen e.a, env.toScreen e.b with
        | some a2, some b2 =>
          let seg := distancePointToSegment2D env.hyp cursor a2 b2
          if seg.dist ≤ cfg.thresholdPx then
            let proj := closestPointOnSegment3D world e.a e.b
            [{ type := .edge, position := proj.point, distancePx := seg.dist,
               priority := cfg.priority.edge,
               meta := some ⟨some e.featureId, some e.edgeStartIndex, none⟩ }]
          else []
        | _, _ => []
      else []
    midCands ++ edgeCands

/-- Grid candidate (part_005 lines 240-254): grid-snap the raw world
candidate, project, threshold-test.  Grid candidates carry no `meta`. -/
def gridCandidate (env : SnapEnv) (cfg : SnappingConfig) (world : Cartesian3)
    (cursor : Cartesian2) : List SnapCandidate :=
  let snapped := env.gridSnap cfg.gridSizeMeters world
  match env.toScreen snapped with
  | some sp =>
    let d := env.hyp (sp.x - cursor.x) (sp.y - cursor.y)
    if d ≤ cfg.thresholdPx then
      [{ type := .grid, position := snapped, distancePx := d,
         priority := cfg.priority.grid, meta := none }]
    else []
  | none => []

/-- The full candidate list built by `snap` on the spatial-index path
(part_005 lines 76-254): vertex candidates, then midpoint/edge candidates,
then the optional grid candidate.  The query radius is
`thresholdPx * metersPerPixelAt(scene, worldCandidate)`. -/
def collectIndexCandidates (env : SnapEnv) (cfg : SnappingConfig)
    (idx : FeatureSpatialIndex) (world : Cartesian3) (cursor : Cartesian2)
    (q : SnapQueryOptions) : List SnapCandidate :=
  (if cfg.sources.polygons then
    (if cfg.types.vertex || cfg.types.midpoint then
      ((idx.query world (cfg.thresholdPx * env.metersPerPixel)).vertices).flatMap
        (vertexCandidate env cfg cursor q)
     else []) ++
    (if cfg.types.midpoint || cfg.types.edge then
      ((idx.query world (cfg.thresholdPx * env.metersPerPixel)).edges).flatMap
        (edgeCandidates env cfg world cursor q)
     else [])
   else []) ++
  (if cfg.sources.grid && cfg.types.grid then gridCandidate env cfg world cursor
   else [])

/-- The comparator of the first sort (part_005 lines 259-262) as a total
preorder: ascending `distancePx`, ties broken by descending `priority`.
`Array.prototype.sort` with a consistent comparator is a stable sort, which
`List.mergeSort` models exactly. -/
def distPrioLe (a b : SnapCandidate) : Bool :=
  decide (a.distancePx < b.distancePx) ||
    (decide (a.distancePx = b.distancePx) && decide (b.priority ≤ a.priority))

/-- The comparator of the near-tie re-sort (part_005 line 267): descending
`priority`. -/
def prioDescLe (a b : SnapCandidate) : Bool :=
  decide (b.priority ≤ a.priority)

/-- The sub-pixel tie set (part_005 lines 265-266): every candidate of the
sorted list whose distance is within `0.75` px of the best distance. -/
def nearOf (best : SnapCandidate) (sorted : List SnapCandidate) : List SnapCandidate :=
  sorted.filter (fun c => decide (|c.distancePx - best.distancePx| < 3 / 4))

/-- Resolution stage of `snap` (part_005 lines 256-270): sort by ascending
distance (ties by descending priority), gather the sub-pixel tie set around
the best distance, re-sort that set by descending priority when it has more
than one member, and return its head (`near[0] ?? candidates[0]`).  The inner
`[]` match arm is unreachable (the sort of a non-empty list is non-empty) and
only totalizes the head access `candidates[0]`. -/
def resolveCandidates (cands : List SnapCandidate) : Option SnapResult :=
  if cands.isEmpty then none
  else
    match cands.mergeSort distPrioLe with
    | [] => none
    | best :: rest =>
      some ⟨(if 1 < (nearOf best (best :: rest)).length
             then (nearOf best (best :: rest)).mergeSort prioDescLe
             else nearOf best (best :: rest)).headD best⟩

/-- `SnappingEngine.snap` on the spatial-index path: candidate generation
followed by resolution. -/
def SnappingEngine.snap (env : SnapEnv) (cfg : SnappingConfig)
    (idx : FeatureSpatialIndex) (world : Cartesian3) (cursor : Cartesian2)
    (q : SnapQueryOptions) : Option SnapResult :=
  resolveCandidates (collectIndexCandidates env cfg idx world cursor q)

theorem distPrioLe_trans : ∀ (a b c : SnapCandidate),
    distPrioLe a b = true → distPrioLe b c = true → distPrioLe a c = true := by
  intro a b c hab hbc
  unfold distPrioLe at *
  simp only [Bool.or_eq_true, Bool.and_eq_true, decide_eq_true_eq] at *
  rcases hab with h1 | ⟨h1, h2⟩ <;> rcases hbc with h3 | ⟨h3, h4⟩
  · exact Or.inl (h1.trans h3)
  · exact Or.inl (h3 ▸ h1)
  · exact Or.inl (h1 ▸ h3)
  · exact Or.inr ⟨h1.trans h3, h4.trans h2⟩

theorem distPrioLe_total : ∀ (a b : SnapCandidate),
    (distPrioLe a b || distPrioLe b a) = true := by
  intro a b
  unfold distPrioLe
  simp only [Bool.or_eq_true, Bool.and_eq_true, decide_eq_true_eq]
  rcases lt_trichotomy a.distancePx b.distancePx with h | h | h
  · exact Or.inl (Or.inl h)
  · rcases le_total b.priority a.priority with hp | hp
    · exact Or.inl (Or.inr ⟨h, hp⟩)
    · exact Or.inr (Or.inr ⟨h.symm, hp⟩)
  · exact Or.inr (Or.inl h)

theorem prioDescLe_trans : ∀ (a b c : SnapCandidate),
    prioDescLe a b = true → prioDescLe b c = true → prioDescLe a c = true := by
  intro a b c hab hbc
  unfold prioDescLe at *
  simp only [decide_eq_true_eq] at *
  exact hbc.trans hab

theorem prioDescLe_total : ∀ (a b : SnapCandidate),
    (prioDescLe a b || prioDescLe b a) = true := by
  intro a b
  unfold prioDescLe
  simp only [Bool.or_eq_true, decide_eq_true_eq]
  exact le_total b.priority a.priority

theorem distPrioLe_dist_le (a b : SnapCandidate) (h : distPrioLe a b = true) :
    a.distancePx ≤ b.distancePx := by
  unfold distPrioLe at h
  simp only [Bool.or_eq_true, Bool.and_eq_true, decide_eq_true_eq] at h
  rcases h with h | ⟨h, -⟩
  · exact le_of_lt h
  · exact le_of_eq h

/-- The resolution stage returns `none` exactly on the empty candidate
list. -/
theorem resolveCandidates_none_iff (cands : List SnapCandidate) :
    resolveCandidates cands = none ↔ cands = [] := by
  constructor
  · intro h
    by_contra hne
    have hemp : cands.isEmpty = false := by
      simpa using hne
    unfold resolveCandidates at h
    rw [hemp] at h
    simp only [Bool.false_eq_true, if_false] at h
    rcases hseq : cands.mergeSort distPrioLe with _ | ⟨best, rest⟩
    · have := List.mergeSort_perm cands distPrioLe
      rw [hseq] at this
      exact hne (this.nil_eq).symm
    · rw [hseq] at h
      cases h
  · intro h
    subst h
    rfl

/-- Full characterization of a successful resolution: the winner is a
candidate; the best distance of the sorted list is the minimum distance of
the candidate list; and the winner is either exactly a minimum-distance
candidate (no sub-pixel tie) or a maximum-priority member of the sub-pixel
tie set. -/
theorem resolveCandidates_spec (cands : List SnapCandidate) (res : SnapResult)
    (h : resolveCandidates cands = some res) :
    res.candidate ∈ cands ∧
    ∃ dmin : ℚ,
      (∃ c ∈ cands, c.distancePx = dmin) ∧
      (∀ c ∈ cands, dmin ≤ c.distancePx) ∧
      (if 1 < (cands.filter (fun c => decide (|c.distancePx - dmin| < 3 / 4))).length then
        (∀ c ∈ cands.filter (fun c => decide (|c.distancePx - dmin| < 3 / 4)),
            c.priority ≤ res.candidate.priority) ∧
        |res.candidate.distancePx - dmin| < 3 / 4
       else res.candidate.distancePx = dmin) := by
  unfold resolveCandidates at h
  by_cases hemp : cands.isEmpty
  · rw [if_pos hemp] at h
    cases h
  · rw [if_neg hemp] at h
    rcases hseq : cands.mergeSort distPrioLe with _ | ⟨best, rest⟩
    · rw [hseq] at h
      cases h
    · rw [hseq] at h
      dsimp only at h
      have hperm : (best :: rest).Perm cands := by
        have := List.mergeSort_perm cands distPrioLe
        rwa [hseq] at this
      have hpair : List.Pairwise (fun a b => distPrioLe a b = true) (best :: rest) := by
        have := List.sorted_mergeSort distPrioLe_trans distPrioLe_total cands
        rwa [hseq] at this
      have hbest_min : ∀ c ∈ cands, best.distancePx ≤ c.distancePx := by
        intro c hc
        have hc' : c ∈ best :: rest := hperm.mem_iff.mpr hc
        rcases List.mem_cons.mp hc' with hc' | hc'
        · exact le_of_eq (hc' ▸ rfl)
        · exact distPrioLe_dist_le best c ((List.pairwise_cons.mp hpair).1 c hc')
      have hbest_mem : best ∈ cands := hperm.mem_iff.mp (List.mem_cons_self best rest)
      have hpredbest : (fun c => decide (|c.distancePx - best.distancePx| < 3 / 4)) best = true := by
        simp only [sub_self, abs_zero, decide_eq_true_eq]
        norm_num
      have hnear_cons : nearOf best (best :: rest) =
          best :: rest.filter (fun c => decide (|c.distancePx - best.distancePx| < 3 / 4)) := by
        unfold nearOf
        rw [List.filter_cons, if_pos hpredbest]
      have hnear_perm : (nearOf best (best :: rest)).Perm
          (cands.filter (fun c => decide (|c.distancePx - best.distancePx| < 3 / 4))) :=
        hperm.filter _
      have hnear_sub : ∀ c ∈ nearOf best (best :: rest), c ∈ cands := by
        intro c hc
        exact hperm.mem_iff.mp (List.mem_of_mem_filter hc)
      have hlen_eq : (cands.filter (fun c => decide (|c.distancePx - best.distancePx| < 3 / 4))).length
          = (nearOf best (best :: rest)).length := (hnear_perm.length_eq).symm
      by_cases htie : 1 < (nearOf best (best :: rest)).length
      · rw [if_pos htie] at h
        rcases hseq2 : (nearOf best (best :: rest)).mergeSort prioDescLe with _ | ⟨w, ws⟩
        · exfalso
          have hp2 := List.mergeSort_perm (nearOf best (best :: rest)) prioDescLe
          rw [hseq2] at hp2
          have : nearOf best (best :: rest) = [] := (hp2.nil_eq).symm
          rw [this] at htie
          simp at htie
        · rw [hseq2] at h
          simp only [List.headD_cons, Option.some.injEq] at h
          have hres : res.candidate = w := by rw [← h]
          have hp2 : (w :: ws).Perm (nearOf best (best :: rest)) := by
            have := List.mergeSort_perm (nearOf best (best :: rest)) prioDescLe
            rwa [hseq2] at this
          have hpair2 : List.Pairwise (fun a b => prioDescLe a b = true) (w :: ws) := by
            have := List.sorted_mergeSort prioDescLe_trans prioDescLe_total
              (nearOf best (best :: rest))
            rwa [hseq2] at this
          have hw_near : w ∈ nearOf best (best :: rest) :=
            hp2.mem_iff.mp (List.mem_cons_self w ws)
          have hw_max : ∀ c ∈ nearOf best (best :: rest), c.priority ≤ w.priority := by
            intro c hc
            rcases List.mem_cons.mp (hp2.mem_iff.mpr hc) with hc' | hc'
            · exact le_of_eq (hc' ▸ rfl)
            · have := (List.pairwise_cons.mp hpair2).1 c hc'
              unfold prioDescLe at this
              simpa using this
          refine ⟨hres ▸ hnear_sub w hw_near, best.distancePx, ⟨best, hbest_mem, rfl⟩,
            hbest_min, ?_⟩
          rw [if_pos (hlen_eq ▸ htie)]
          constructor
          · intro c hc
            rw [hres]
            exact hw_max c (hnear_perm.mem_iff.mpr hc)
          · rw [hres]
            have := List.of_mem_filter hw_near
            simpa using this
      · rw [if_neg htie] at h
        rw [hnear_cons] at h
        simp only [List.headD_cons, Option.some.injEq] at h
        have hres : res.candidate = best := by rw [← h]
        refine ⟨hres ▸ hbest_mem, best.distancePx, ⟨best, hbest_mem, rfl⟩, hbest_min, ?_⟩
        rw [if_neg (hlen_eq ▸ htie)]
        rw [hres]

/-- C4: `snap` returns `null` exactly when the surviving candidate list is
empty (and, being a total function, never throws).  On a non-empty list it
returns a surviving candidate whose distance is the minimal screen-pixel
distance `dmin`; except that when two or more candidates lie within `0.75`
px of `dmin`, the winner is a highest-priority candidate among those (so
with default priorities a vertex beats an edge at equal distance). -/
theorem snap_resolution (env : SnapEnv) (cfg : SnappingConfig) (idx : FeatureSpatialIndex)
    (world : Cartesian3) (cursor : Cartesian2) (q : SnapQueryOptions) :
    (SnappingEngine.snap env cfg idx world cursor q = none ↔
        collectIndexCandidates env cfg idx world cursor q = []) ∧
    (∀ res : SnapResult, SnappingEngine.snap env cfg idx world cursor q = some res →
      res.candidate ∈ collectIndexCandidates env cfg idx world cursor q ∧
      ∃ dmin : ℚ,
        (∃ c ∈ collectIndexCandidates env cfg idx world cursor q, c.distancePx = dmin) ∧
        (∀ c ∈ collectIndexCandidates env cfg idx world cursor q, dmin ≤ c.distancePx) ∧
        (if 1 < ((collectIndexCandidates env cfg idx world cursor q).filter
              (fun c => decide (|c.distancePx - dmin| < 3 / 4))).length then
          (∀ c ∈ (collectIndexCandidates env cfg idx world cursor q).filter
              (fun c => decide (|c.distancePx - dmin| < 3 / 4)),
            c.priority ≤ res.candidate.priority) ∧
          |res.candidate.distancePx - dmin| < 3 / 4
         else res.candidate.distancePx = dmin)) :=
  ⟨resolveCandidates_none_iff _, fun res h => resolveCandidates_spec _ res h⟩

/-- Concrete engine environment for the snap witnesses. -/
def envW : SnapEnv :=
  { toScreen := fun v => some ⟨v.x, v.y⟩
    hyp := fun x y => |x| + |y|
    metersPerPixel := 1
    gridSnap := fun _ w => w }

/-- Concrete engine configuration for the C4 witness: only the grid source is
active, so the candidate list is the single grid candidate. -/
def cfgW : SnappingConfig :=
  { thresholdPx := 12
    types := { vertex := true, midpoint := true, edge := true, grid := true }
    sources := { polygons := false, grid := true }
    priority := defaultSnapPriority
    gridSizeMeters := 5 }

/-- The single candidate produced in the C4 witness configuration. -/
def candW : SnapCandidate :=
  { type := .grid, position := ⟨1, 2, 3⟩, distancePx := 3,
    priority := 40, meta := none }

theorem snap_resolution_witness :
    SnappingEngine.snap envW cfgW (FeatureSpatialIndex.emptyIndex 50) ⟨1, 2, 3⟩ ⟨0, 0⟩
        {} = some ⟨candW⟩ ∧
    candW ∈ collectIndexCandidates envW cfgW (FeatureSpatialIndex.emptyIndex 50)
        ⟨1, 2, 3⟩ ⟨0, 0⟩ {} := by
  have hcands : collectIndexCandidates envW cfgW (FeatureSpatialIndex.emptyIndex 50)
      ⟨1, 2, 3⟩ ⟨0, 0⟩ {} = [candW] := by
    unfold collectIndexCandidates gridCandidate
    norm_num [envW, cfgW, candW, defaultSnapPriority]
  have hsnap : SnappingEngine.snap envW cfgW (FeatureSpatialIndex.emptyIndex 50)
      ⟨1, 2, 3⟩ ⟨0, 0⟩ {} = some ⟨candW⟩ := by
    unfold SnappingEngine.snap
    rw [hcands]
    unfold resolveCandidates nearOf
    norm_num [List.mergeSort]
  refine ⟨hsnap, ?_⟩
  have := (snap_resolution envW cfgW (FeatureSpatialIndex.emptyIndex 50)
    ⟨1, 2, 3⟩ ⟨0, 0⟩ {}).2 ⟨candW⟩ hsnap
  exact this.1

/-- Everything a vertex candidate discloses about its origin: it is tagged
`vertex`, carries the source vertex's owner id and index in its meta, and
can only have been emitted if the exclusion guard did not fire. -/
theorem vertexCandidate_mem (env : SnapEnv) (cfg : SnappingConfig) (cursor : Cartesian2)
    (q : SnapQueryOptions) (v : IndexedVertex) (c : SnapCandidate)
    (hc : c ∈ vertexCandidate env cfg cursor q v) :
    c.type = SnapType.vertex ∧
    c.meta = some ⟨some v.featureId, none, some v.vertexIndex⟩ ∧
    ¬(truthyStr q.excludeOwnerId = true ∧ q.excludeOwnerId = some v.featureId ∧
      (q.excludeIndex = none ∨ q.excludeIndex = some v.vertexIndex)) := by
  unfold vertexCandidate at hc
  by_cases hex : truthyStr q.excludeOwnerId = true ∧ q.excludeOwnerId = some v.featureId ∧
      (q.excludeIndex = none ∨ q.excludeIndex = some v.vertexIndex)
  · rw [if_pos hex] at hc
    simp at hc
  · rw [if_neg hex] at hc
    by_cases hvt : cfg.types.vertex = true
    · rw [if_pos hvt] at hc
      cases hts : env.toScreen v.position with
      | none =>
        rw [hts] at hc
        simp at hc
      | some sp =>
        rw [hts] at hc
        dsimp only at hc
        by_cases hd : env.hyp (sp.x - cursor.x) (sp.y - cursor.y) ≤ cfg.thresholdPx
        · rw [if_pos hd] at hc
          have hcc := List.eq_of_mem_singleton hc
          subst hcc
          exact ⟨rfl, rfl, hex⟩
        · rw [if_neg hd] at hc
          simp at hc
    · rw [if_neg hvt] at hc
      simp at hc

/-- The vertex-emission direction: a queried vertex that is not the excluded
one, projects to the screen, and passes the pixel threshold is emitted. -/
theorem vertexCandidate_emit (env : SnapEnv) (cfg : SnappingConfig) (cursor : Cartesian2)
    (q : SnapQueryOptions) (v : IndexedVertex) (sp : Cartesian2)
    (hex : ¬(truthyStr q.excludeOwnerId = true ∧ q.excludeOwnerId = some v.featureId ∧
      (q.excludeIndex = none ∨ q.excludeIndex = some v.vertexIndex)))
    (hvt : cfg.types.vertex = true)
    (hsp : env.toScreen v.position = some sp)
    (hd : env.hyp (sp.x - cursor.x) (sp.y - cursor.y) ≤ cfg.thresholdPx) :
    ({ type := .vertex, position := v.position,
       distancePx := env.hyp (sp.x - cursor.x) (sp.y - cursor.y),
       priority := cfg.priority.vertex,
       meta := some ⟨some v.featureId, none, some v.vertexIndex⟩ } : SnapCandidate) ∈
      vertexCandidate env cfg cursor q v := by
  unfold vertexCandidate
  rw [if_neg hex, if_pos hvt, hsp]
  dsimp only
  rw [if_pos hd]
  exact List.mem_singleton_self _

/-- Everything a midpoint/edge candidate discloses about its origin. -/
theorem edgeCandidates_mem (env : SnapEnv) (cfg : SnappingConfig) (world : Cartesian3)
    (cursor : Cartesian2) (q : SnapQueryOptions) (e : IndexedEdge) (c : SnapCandidate)
    (hc : c ∈ edgeCandidates env cfg world cursor q e) :
    (∃ m : SnapMeta, c.meta = some m ∧ m.ownerId = some e.featureId ∧ m.vertexIndex = none) ∧
    ¬(truthyStr q.excludeOwnerId = true ∧ q.excludeOwnerId = some e.featureId ∧
      q.excludeIndex = none) := by
  unfold edgeCandidates at hc
  by_cases hex : truthyStr q.excludeOwnerId = true ∧ q.excludeOwnerId = some e.featureId ∧
      q.excludeIndex = none
  · rw [if_pos hex] at hc
    simp at hc
  · rw [if_neg hex] at hc
    dsimp only at hc
    rcases List.mem_append.mp hc with hmid | hedge
    · by_cases hmt : cfg.types.midpoint = true
      · rw [if_pos hmt] at hmid
        cases hts : env.toScreen (e.a.midpoint e.b) with
        | none =>
          rw [hts] at hmid
          simp at hmid
        | some sp =>
          rw [hts] at hmid
          dsimp only at hmid
          by_cases hd : env.hyp (sp.x - cursor.x) (sp.y - cursor.y) ≤ cfg.thresholdPx
          · rw [if_pos hd] at hmid
            have hcc := List.eq_of_mem_singleton hmid
            subst hcc
            exact ⟨⟨_, rfl, rfl, rfl⟩, hex⟩
          · rw [if_neg hd] at hmid
            simp at hmid
      · rw [if_neg hmt] at hmid
        simp at hmid
    · by_cases het : cfg.types.edge = true
      · rw [if_pos het] at hedge
        cases hta : env.toScreen e.a with
        | none =>
          rw [hta] at hedge
          simp at hedge
        | some a2 =>
          cases htb : env.toScreen e.b with
          | none =>
            rw [hta, htb] at hedge
            simp at hedge
          | some b2 =>
            rw [hta, htb] at hedge
            dsimp only at hedge
            by_cases hd : (distancePointToSegment2D env.hyp cursor a2 b2).dist ≤ cfg.thresholdPx
            · rw [if_pos hd] at hedge
              have hcc := List.eq_of_mem_singleton hedge
              subst hcc
              exact ⟨⟨_, rfl, rfl, rfl⟩, hex⟩
            · rw [if_neg hd] at hedge
              simp at hedge
      · rw [if_neg het] at hedge
        simp at hedge

/-- Grid candidates carry no meta. -/
theorem gridCandidate_mem (env : SnapEnv) (cfg : SnappingConfig) (world : Cartesian3)
    (cursor : Cartesian2) (c : SnapCandidate)
    (hc : c ∈ gridCandidate env cfg world cursor) : c.meta = none := by
  unfold gridCandidate at hc
  dsimp only at hc
  cases hts : env.toScreen (env.gridSnap cfg.gridSizeMeters world) with
  | none =>
    rw [hts] at hc
    simp at hc
  | some sp =>
    rw [hts] at hc
    dsimp only at hc
    by_cases hd : env.hyp (sp.x - cursor.x) (sp.y - cursor.y) ≤ cfg.thresholdPx
    · rw [if_pos hd] at hc
      have hcc := List.eq_of_mem_singleton hc
      subst hcc
      rfl
    · rw [if_neg hd] at hc
      simp at hc

/-- Case split for membership in the full candidate list. -/
theorem collect_cases (env : SnapEnv) (cfg : SnappingConfig) (idx : FeatureSpatialIndex)
    (world : Cartesian3) (cursor : Cartesian2) (q : SnapQueryOptions) (c : SnapCandidate)
    (hc : c ∈ collectIndexCandidates env cfg idx world cursor q) :
    (∃ v ∈ (idx.query world (cfg.thresholdPx * env.metersPerPixel)).vertices,
        c ∈ vertexCandidate env cfg cursor q v) ∨
    (∃ e ∈ (idx.query world (cfg.thresholdPx * env.metersPerPixel)).edges,
        c ∈ edgeCandidates env cfg world cursor q e) ∨
    c ∈ gridCandidate env cfg world cursor := by
  unfold collectIndexCandidates at hc
  rcases List.mem_append.mp hc with hgeom | hgrid
  · by_cases hsrc : cfg.sources.polygons = true
    · rw [if_pos hsrc] at hgeom
      rcases List.mem_append.mp hgeom with hv | he
      · by_cases hvt : (cfg.types.vertex || cfg.types.midpoint) = true
        · rw [if_pos hvt] at hv
          obtain ⟨v, hvmem, hvc⟩ := List.mem_flatMap.mp hv
          exact Or.inl ⟨v, hvmem, hvc⟩
        · rw [if_neg hvt] at hv
          simp at hv
      · by_cases het : (cfg.types.midpoint || cfg.types.edge) = true
        · rw [if_pos het] at he
          obtain ⟨e, hemem, hec⟩ := List.mem_flatMap.mp he
          exact Or.inr (Or.inl ⟨e, hemem, hec⟩)
        · rw [if_neg het] at he
          simp at he
    · rw [if_neg hsrc] at hgeom
      simp at hgeom
  · by_cases hg : (cfg.sources.grid && cfg.types.grid) = true
    · rw [if_pos hg] at hgrid
      exact Or.inr (Or.inr hgrid)
    · rw [if_neg hg] at hgrid
      simp at hgrid

/-- C5: snapping exclusion.  During a vertex drag of vertex `i` of feature
`P` (`excludeOwnerId = P`, `excludeIndex = i`, with `P` a truthy id, as every
drag-begin path guarantees), neither the candidate list nor the returned
result ever contains the vertex candidate `(P, i)` itself, while every other
queried vertex of `P` that projects to the screen within the pixel threshold
is still emitted.  When `excludeIndex` is absent (translate drag), no
candidate owned by `P` — vertex, midpoint or edge — survives at all. -/
theorem snap_exclusion (env : SnapEnv) (cfg : SnappingConfig) (idx : FeatureSpatialIndex)
    (world : Cartesian3) (cursor : Cartesian2) (P : String) (i : Nat) (hP : P ≠ "") :
    (∀ c ∈ collectIndexCandidates env cfg idx world cursor ⟨some P, some i⟩,
        ¬(c.type = SnapType.vertex ∧ c.meta = some ⟨some P, none, some i⟩)) ∧
    (∀ res : SnapResult,
        SnappingEngine.snap env cfg idx world cursor ⟨some P, some i⟩ = some res →
        ¬(res.candidate.type = SnapType.vertex ∧
          res.candidate.meta = some ⟨some P, none, some i⟩)) ∧
    (cfg.sources.polygons = true → cfg.types.vertex = true →
      ∀ v ∈ (idx.query world (cfg.thresholdPx * env.metersPerPixel)).vertices,
        v.featureId = P → v.vertexIndex ≠ i →
        ∀ sp : Cartesian2, env.toScreen v.position = some sp →
          env.hyp (sp.x - cursor.x) (sp.y - cursor.y) ≤ cfg.thresholdPx →
          ({ type := .vertex, position := v.position,
             distancePx := env.hyp (sp.x - cursor.x) (sp.y - cursor.y),
             priority := cfg.priority.vertex,
             meta := some ⟨some v.featureId, none, some v.vertexIndex⟩ } : SnapCandidate) ∈
            collectIndexCandidates env cfg idx world cursor ⟨some P, some i⟩) ∧
    (∀ c ∈ collectIndexCandidates env cfg idx world cursor ⟨some P, none⟩,
        ∀ m : SnapMeta, c.meta = some m → m.ownerId ≠ some P) := by
  have htruthy : truthyStr (some P) = true := by
    unfold truthyStr
    simpa using hP
  have hdragged : ∀ c ∈ collectIndexCandidates env cfg idx world cursor ⟨some P, some i⟩,
      ¬(c.type = SnapType.vertex ∧ c.meta = some ⟨some P, none, some i⟩) := by
    intro c hc hmetapair
    obtain ⟨-, hmeta⟩ := hmetapair
    rcases collect_cases env cfg idx world cursor ⟨some P, some i⟩ c hc with
      ⟨v, -, hvc⟩ | ⟨e, -, hec⟩ | hgc
    · obtain ⟨-, hmeta', hnex⟩ := vertexCandidate_mem env cfg cursor _ v c hvc
      rw [hmeta] at hmeta'
      have hfid : P = v.featureId := by
        have := congrArg (fun o => o.map SnapMeta.ownerId) hmeta'
        simpa using this
      have hidx : i = v.vertexIndex := by
        have := congrArg (fun o => o.map SnapMeta.vertexIndex) hmeta'
        simpa using this
      exact hnex ⟨htruthy, by rw [hfid], Or.inr (by rw [hidx])⟩
    · obtain ⟨⟨m, hm, -, hmv⟩, -⟩ := edgeCandidates_mem env cfg world cursor _ e c hec
      rw [hmeta] at hm
      have : m = ⟨some P, none, some i⟩ := by
        simpa using hm.symm
      rw [this] at hmv
      cases hmv
    · have := gridCandidate_mem env cfg world cursor c hgc
      rw [hmeta] at this
      cases this
  refine ⟨hdragged, ?_, ?_, ?_⟩
  · intro res hres
    exact hdragged res.candidate (resolveCandidates_spec _ res hres).1
  · intro hsrc hvt v hvmem hfid hidx sp hsp hd
    have hex : ¬(truthyStr (SnapQueryOptions.mk (some P) (some i)).excludeOwnerId = true ∧
        (SnapQueryOptions.mk (some P) (some i)).excludeOwnerId = some v.featureId ∧
        ((SnapQueryOptions.mk (some P) (some i)).excludeIndex = none ∨
         (SnapQueryOptions.mk (some P) (some i)).excludeIndex = some v.vertexIndex)) := by
      rintro ⟨-, -, hcase | hcase⟩
      · cases hcase
      · exact hidx (by simpa using hcase.symm)
    have hmem := vertexCandidate_emit env cfg cursor ⟨some P, some i⟩ v sp hex hvt hsp hd
    unfold collectIndexCandidates
    rw [if_pos hsrc]
    refine List.mem_append.mpr (Or.inl (List.mem_append.mpr (Or.inl ?_)))
    rw [if_pos (by rw [hvt]; rfl)]
    exact List.mem_flatMap.mpr ⟨v, hvmem, hmem⟩
  · intro c hc m hm
    rcases collect_cases env cfg idx world cursor ⟨some P, none⟩ c hc with
      ⟨v, -, hvc⟩ | ⟨e, -, hec⟩ | hgc
    · obtain ⟨-, hmeta', hnex⟩ := vertexCandidate_mem env cfg cursor _ v c hvc
      intro howner
      rw [hm] at hmeta'
      have hmeq : m = ⟨some v.featureId, none, some v.vertexIndex⟩ := by
        simpa using hmeta'
      have hfid : some v.featureId = some P := by
        rw [hmeq] at howner
        simpa using howner
      exact hnex ⟨htruthy, by simpa using hfid.symm, Or.inl rfl⟩
    · obtain ⟨⟨m', hm', howner', -⟩, hnex⟩ := edgeCandidates_mem env cfg world cursor _ e c hec
      intro howner
      rw [hm] at hm'
      have hmm : m = m' := by simpa using hm'
      rw [hmm, howner'] at howner
      have : e.featureId = P := by simpa using howner
      exact hnex ⟨htruthy, by rw [this], rfl⟩
    · have := gridCandidate_mem env cfg world cursor c hgc
      rw [hm] at this
      cases this

theorem snap_exclusion_witness :
    ("p" : String) ≠ "" ∧
    (∀ c ∈ collectIndexCandidates envW cfgW (FeatureSpatialIndex.emptyIndex 50)
        ⟨0, 0, 0⟩ ⟨0, 0⟩ ⟨some "p", some 0⟩,
      ¬(c.type = SnapType.vertex ∧ c.meta = some ⟨some "p", none, some 0⟩)) := by
  have h := snap_exclusion envW cfgW (FeatureSpatialIndex.emptyIndex 50)
    ⟨0, 0, 0⟩ ⟨0, 0⟩ "p" 0 (by decide)
  exact ⟨by decide, h.1⟩

/-! ## Commands and undo stack (`src/features/commands.ts`,
`src/viewer/commands/CommandStack.ts`) -/

/-- The one command class the edit tool pushes for a drag commit or vertex
edit: `UpdateFeatureCommand { store, id, before, after }` (commands.ts lines
114-130).  `do()` upserts `after`, `undo()` upserts `before`. -/
inductive Command where
  | update (id : String) (before after : Feature)
deriving DecidableEq, Repr

/-- `command.do()`. -/
def Command.doEffect : Command → Store → Store
  | .update _ _ after, st => storeUpsert st after

/-- `command.undo()`. -/
def Command.undoEffect : Command → Store → Store
  | .update _ before _, st => storeUpsert st before

/-- `CommandStack` state: `done` and `undone`, both pushed at the end. -/
structure CommandStack where
  done : List Command
  undone : List Command
deriving DecidableEq, Repr

/-- The mutable world outside the edit tool: the feature store, the undo
stack, and the messages sent to the `onNotice` callback. -/
structure World where
  store : Store
  stack : CommandStack
  notices : List String
deriving DecidableEq, Repr

/-- `CommandStack.push` (CommandStack.ts lines 17-22): run `cmd.do()`,
append to `done`, clear `undone`. -/
def World.push (w : World) (cmd : Command) : World :=
  { w with store := cmd.doEffect w.store
           stack := { done := w.stack.done ++ [cmd], undone := [] } }

/-- `CommandStack.undo` (lines 24-30): pop the last done command, run
`undo()`, move it to `undone`. -/
def World.undo (w : World) : World :=
  match w.stack.done.getLast? with
  | none => w
  | some cmd =>
    { w with store := cmd.undoEffect w.store
             stack := { done := w.stack.done.dropLast, undone := w.stack.undone ++ [cmd] } }

/-- `CommandStack.redo` (lines 32-38). -/
def World.redo (w : World) : World :=
  match w.stack.undone.getLast? with
  | none => w
  | some cmd =>
    { w with store := cmd.doEffect w.store
             stack := { done := w.stack.done ++ [cmd], undone := w.stack.undone.dropLast } }

/-- `opts.onNotice?.(msg)`. -/
def World.notify (w : World) (msg : String) : World :=
  { w with notices := w.notices ++ [msg] }

/-! ## Edit transaction state machine
(`src/viewer/edit/FeatureEditTool.ts`) -/

/-- `DragMode = "none" | "vertex" | "translate"`. -/
inductive DragMode where
  | none
  | vertex
  | translate
deriving DecidableEq, Repr

/-- The mutable fields of `FeatureEditTool` relevant to the edit
transaction.  Render-only state (handle entities, styles, the snap
indicator) is not observable by any claim and is elided. -/
structure EditState where
  selectedId : Option String
  selectedKind : Option FeatureKind
  activeHandleIndex : Option Nat
  dragMode : DragMode
  dragIndex : Option Nat
  dragBeforePositions : Option (List Cartesian3)
  dragBeforePosition : Option Cartesian3
  dragBeforeFeature : Option Feature
  dragStartAnchor : Option Cartesian3
  dragPreviewPositions : Option (List Cartesian3)
  dragPreviewPosition : Option Cartesian3
  cameraLocked : Bool
deriving DecidableEq, Repr

/-- External collaborators of the edit tool: the geodetic conversion used by
the polygon validator, `Number.isFinite` on the idealized scalar, and
`Date.now()`. -/
structure ToolEnv where
  toLonLat : Cartesian3 → ℚ × ℚ
  isFinite : ℚ → Bool
  now : Int

/-- The polygon arm of the commit-time validation dispatch (FeatureEditTool
lines 354-357): `ok ? null : issues[0]?.message ?? "几何校验失败"`. -/
def polygonCommitError (env : ToolEnv) (ps : List Cartesian3) : Option String :=
  if (validatePolygonPositions env.toLonLat ps).ok then none
  else some ((((validatePolygonPositions env.toLonLat ps).issues.head?).map
    ValidationIssue.message).getD "几何校验失败")

/-- `meta ? { ...meta, updatedAt: Date.now() } : meta`. -/
def metaTouch (env : ToolEnv) (m : Option FeatureMeta) : Option FeatureMeta :=
  m.map (fun m0 => { m0 with updatedAt := some env.now })

/-- The `LEFT_UP` commit handler of `FeatureEditTool` (lines 309-376).  The
entry guard `dragMode === "none" || !this.selectedId || !this.selectedKind`
uses JS truthiness, so a selected id of `""` also bails out; the drag state
is reset and the camera unlocked before validation; a validation failure
notifies and re-upserts the `before` snapshot; success pushes exactly one
`UpdateFeatureCommand` built from the last preview. -/
def leftUp (env : ToolEnv) (s : EditState) (w : World) : EditState × World :=
  match s.selectedId, s.selectedKind with
  | some id, some kind =>
    if s.dragMode = DragMode.none ∨ id = "" then (s, w)
    else
      let s' : EditState :=
        { s with
            dragMode := DragMode.none
            dragIndex := none
            dragBeforePositions := none
            dragBeforePosition := none
            dragBeforeFeature := none
            dragStartAnchor := none
            dragPreviewPositions := none
            dragPreviewPosition := none
            cameraLocked := false }
      match s.dragBeforeFeature with
      | none => (s', w)
      | some before =>
        match kind with
        | .point =>
          match s.dragPreviewPosition with
          | none => (s', w)
          | some afterPos =>
            match validatePointPosition env.isFinite (some afterPos) with
            | some err =>
              (s', { (w.notify ("编辑提交失败：" ++ err)) with
                     store := storeUpsert w.store before })
            | none =>
              (s', w.push (Command.update id before (snapshotFeature
                { before with
                    id := id
                    geometry := .point afterPos
                    meta := metaTouch env before.meta })))
        | _ =>
          match s.dragPreviewPositions with
          | none => (s', w)
          | some afterPositions =>
            match (match kind with
                   | FeatureKind.polygon => polygonCommitError env afterPositions
                   | _ => validatePolylinePositions afterPositions) with
            | some msg =>
              (s', { (w.notify ("编辑提交失败：" ++ msg)) with
                     store := storeUpsert w.store before })
            | none =>
              (s', w.push (Command.update id before (snapshotFeature
                { before with
                    id := id
                    geometry := (if kind = FeatureKind.polygon
                                 then FeatGeometry.polygonGeom afterPositions
                                 else FeatGeometry.polylineGeom afterPositions)
                    meta := metaTouch env before.meta })))
  | _, _ => (s, w)

/-- `deselect` (FeatureEditTool lines 552-578): clears the selection, the
active handle, the handle entities and the snap indicator, and restores the
highlight style.  It does not touch the drag fields, the camera lock, the
store or the stack. -/
def deselect (s : EditState) : EditState :=
  { s with
      selectedId := none
      selectedKind := none
      activeHandleIndex := none }

/-- The `keydown` handler's Escape branch (FeatureEditTool line 379):
`if (e.key === "Escape") this.deselect();` — nothing else. -/
def escapeKeydown (s : EditState) (w : World) : EditState × World :=
  (deselect s, w)

/-- `positions.filter((_, i) => i !== k)`. -/
def removeAtIndex (ps : List Cartesian3) (k : Nat) : List Cartesian3 :=
  (ps.enum.filter (fun ip => ip.1 ≠ k)).map Prod.snd

/-- `FeatureEditTool.deleteActiveVertex` (lines 589-653).  The guard uses JS
truthiness on `selectedId`; a point is never vertex-deleted; a polygon at or
below 3 vertices (polyline at or below 2) is rejected by an `alert` with no
state change; otherwise the reduced ring is validated, a failure notifies
with no state change, and success pushes one `UpdateFeatureCommand`. -/
def deleteActiveVertex (env : ToolEnv) (s : EditState) (w : World) : EditState × World :=
  match s.selectedId, s.selectedKind, s.activeHandleIndex with
  | some id, some kind, some k =>
    if id = "" then (s, w)
    else
      match kind with
      | .point => (s, w)
      | .polygon =>
        match storeGetPolygon w.store id with
        | none => (s, w)
        | some (feat, positions) =>
          if positions.length ≤ 3 then (s, w)
          else
            if (validatePolygonPositions env.toLonLat (removeAtIndex positions k)).ok then
              ({ s with activeHandleIndex := none },
               w.push (Command.update id (snapshotFeature feat) (snapshotFeature
                 { feat with
                     geometry := .polygonGeom (removeAtIndex positions k)
                     meta := metaTouch env feat.meta })))
            else
              (s, w.notify ("删点失败：" ++
                ((((validatePolygonPositions env.toLonLat
                    (removeAtIndex positions k)).issues.head?).map
                  ValidationIssue.message).getD "几何校验失败")))
      | .polyline =>
        match storeGetPolyline w.store id with
        | none => (s, w)
        | some (feat, positions) =>
          if positions.length ≤ 2 then (s, w)
          else
            match validatePolylinePositions (removeAtIndex positions k) with
            | some err => (s, w.notify ("删点失败：" ++ err))
            | none =>
              ({ s with activeHandleIndex := none },
               w.push (Command.update id (snapshotFeature feat) (snapshotFeature
                 { feat with
                     geometry := .polylineGeom (removeAtIndex positions k)
                     meta := metaTouch env feat.meta })))
  | _, _, _ => (s, w)

/-- The return type of `FeatureEditTool.snapWithEngine` (lines 947-955): the
method returns `res.candidate` — a whole `SnapCandidate` record — when the
engine found a result, and the raw world position otherwise.  (Its sibling
`PolygonEditTool.snapWithEngine` in the earlier snapshot instead returns
`Cesium.Cartesian3.clone(res.candidate.position)`.) -/
inductive SnapWithEngineResult where
  | candidateObj (c : SnapCandidate)
  | worldPos (p : Cartesian3)
deriving DecidableEq, Repr

/-- `FeatureEditTool.snapWithEngine`, verbatim: `const res =
this.snapping.snap(world, screen, opts); if (res) return res.candidate;
return world;`.  `snapFn` stands for the bound engine call. -/
def FeatureEditTool.snapWithEngine (snapFn : Cartesian3 → Option SnapResult)
    (world : Cartesian3) : SnapWithEngineResult :=
  match snapFn world with
  | some res => .candidateObj res.candidate
  | none => .worldPos world

/-- Shared analysis of the `LEFT_UP` failure path: when the commit-time
validation of the preview fails, the handler resets the drag state, upserts
the `before` snapshot (which leaves the store unchanged, since the store
still holds exactly that snapshot — previews are written to the render layer
only), leaves the stack untouched, and appends the rejection notice. -/
theorem leftUp_reject_of_invalid (env : ToolEnv) (s : EditState) (w : World)
    (id : String) (kind : FeatureKind) (before : Feature) (msg : String)
    (hid : s.selectedId = some id) (hP : id ≠ "")
    (hkind : s.selectedKind = some kind)
    (hmode : s.dragMode ≠ DragMode.none)
    (hbefore : s.dragBeforeFeature = some before)
    (hget : storeGet w.store before.id = some before)
    (hnodup : (w.store.map Feature.id).Nodup)
    (hfail :
      (∃ p, kind = FeatureKind.point ∧ s.dragPreviewPosition = some p ∧
        validatePointPosition env.isFinite (some p) = some msg) ∨
      (∃ ps, kind = FeatureKind.polyline ∧ s.dragPreviewPositions = some ps ∧
        validatePolylinePositions ps = some msg) ∨
      (∃ ps, kind = FeatureKind.polygon ∧ s.dragPreviewPositions = some ps ∧
        polygonCommitError env ps = some msg)) :
    (leftUp env s w).1.dragMode = DragMode.none ∧
    (leftUp env s w).1.cameraLocked = false ∧
    (leftUp env s w).2.store = storeUpsert w.store before ∧
    (leftUp env s w).2.store = w.store ∧
    (leftUp env s w).2.stack = w.stack ∧
    (leftUp env s w).2.notices = w.notices ++ ["编辑提交失败：" ++ msg] := by
  have hupseq : storeUpsert w.store before = w.store :=
    storeUpsert_of_get w.store before hnodup hget
  have hguard : ¬(s.dragMode = DragMode.none ∨ id = "") := by
    rintro (h | h)
    · exact hmode h
    · exact hP h
  unfold leftUp
  rw [hid, hkind]
  dsimp only
  rw [if_neg hguard, hbefore]
  rcases hfail with ⟨p, hk, hprev, hval⟩ | ⟨ps, hk, hprev, hval⟩ | ⟨ps, hk, hprev, hval⟩
  · subst hk
    dsimp only
    rw [hprev]
    dsimp only
    rw [hval]
    exact ⟨rfl, rfl, rfl, hupseq, rfl, rfl⟩
  · subst hk
    dsimp only
    rw [hprev]
    dsimp only
    rw [hval]
    exact ⟨rfl, rfl, rfl, hupseq, rfl, rfl⟩
  · subst hk
    dsimp only
    rw [hprev]
    dsimp only
    rw [hval]
    exact ⟨rfl, rfl, rfl, hupseq, rfl, rfl⟩

/-- C1: every drag transaction that ends in validation failure at pointer-up
— a polygon failing `validatePolygonPositions`, a polyline failing
`validatePolylinePositions`, or a point rejected by `validatePointPosition`
(non-finite coordinates) — is rolled back: the commit handler upserts the
`before` snapshot, leaving the Feature Store structurally equal to its
pre-drag state, pushes nothing onto the undo stack, and reports the
rejection reason through the notice callback.  (A drag can only be active
under a truthy selected id, whence `id ≠ ""`; and the store still holds the
`before` snapshot at pointer-up because previews write only to the render
layer.) -/
theorem commit_failure_rolls_back (env : ToolEnv) (s : EditState) (w : World)
    (id : String) (kind : FeatureKind) (before : Feature) (msg : String)
    (hid : s.selectedId = some id) (hP : id ≠ "")
    (hkind : s.selectedKind = some kind)
    (hmode : s.dragMode ≠ DragMode.none)
    (hbefore : s.dragBeforeFeature = some before)
    (hget : storeGet w.store before.id = some before)
    (hnodup : (w.store.map Feature.id).Nodup)
    (hfail :
      (∃ p, kind = FeatureKind.point ∧ s.dragPreviewPosition = some p ∧
        validatePointPosition env.isFinite (some p) = some msg) ∨
      (∃ ps, kind = FeatureKind.polyline ∧ s.dragPreviewPositions = some ps ∧
        validatePolylinePositions ps = some msg) ∨
      (∃ ps, kind = FeatureKind.polygon ∧ s.dragPreviewPositions = some ps ∧
        polygonCommitError env ps = some msg)) :
    (leftUp env s w).2.store = storeUpsert w.store before ∧
    (leftUp env s w).2.store = w.store ∧
    (leftUp env s w).2.stack = w.stack ∧
    (leftUp env s w).2.notices = w.notices ++ ["编辑提交失败：" ++ msg] := by
  obtain ⟨-, -, h1, h2, h3, h4⟩ :=
    leftUp_reject_of_invalid env s w id kind before msg hid hP hkind hmode hbefore
      hget hnodup hfail
  exact ⟨h1, h2, h3, h4⟩

/-- Concrete tool environment for the edit witnesses. -/
def envT : ToolEnv :=
  { toLonLat := fun v => (v.x, v.y), isFinite := fun _ => true, now := 0 }

/-- A concrete committed polyline feature. -/
def beforeLine : Feature :=
  { id := "f", geometry := .polylineGeom [⟨0, 0, 0⟩, ⟨1, 0, 0⟩], meta := none }

/-- A mid-vertex-drag state whose live preview has collapsed the two
polyline points onto each other (so commit validation fails). -/
def sDragBad : EditState :=
  { selectedId := some "f", selectedKind := some .polyline, activeHandleIndex := some 1,
    dragMode := .vertex, dragIndex := some 1,
    dragBeforePositions := some [⟨0, 0, 0⟩, ⟨1, 0, 0⟩], dragBeforePosition := none,
    dragBeforeFeature := some beforeLine, dragStartAnchor := none,
    dragPreviewPositions := some [⟨0, 0, 0⟩, ⟨0, 0, 0⟩], dragPreviewPosition := none,
    cameraLocked := true }

/-- The world at pointer-up: the store still holds the committed feature. -/
def wDrag : World :=
  { store := [beforeLine], stack := ⟨[], []⟩, notices := [] }

theorem commit_failure_rolls_back_witness :
    (leftUp envT sDragBad wDrag).2.store = storeUpsert wDrag.store beforeLine ∧
    (leftUp envT sDragBad wDrag).2.store = wDrag.store ∧
    (leftUp envT sDragBad wDrag).2.stack = wDrag.stack ∧
    (leftUp envT sDragBad wDrag).2.notices =
      wDrag.notices ++ ["编辑提交失败：折线存在相邻重复点。"] := by
  have hval : validatePolylinePositions [(⟨0, 0, 0⟩ : Cartesian3), ⟨0, 0, 0⟩] =
      some "折线存在相邻重复点。" := by
    unfold validatePolylinePositions cartesian3EqualsEpsilon mathEqualsEpsilon
    norm_num
  exact commit_failure_rolls_back envT sDragBad wDrag "f" .polyline beforeLine
    "折线存在相邻重复点。" rfl (by decide) rfl (by decide) rfl
    (by simp [storeGet, wDrag, beforeLine]) (by simp [wDrag])
    (Or.inr (Or.inl ⟨[⟨0, 0, 0⟩, ⟨0, 0, 0⟩], rfl, rfl, hval⟩))

/-- C2: a successful drag-commit pushes exactly one `UpdateFeatureCommand`
capturing `(before, after)` (where `after` is built from the last preview,
carries the selected id, and is pushed through `snapshotFeature`, whose deep
clone is the identity on values).  `undo()` immediately afterwards pops that
command and upserts `before`, so the store again maps the id to the pre-drag
snapshot; a subsequent `redo()` re-upserts `after`, restoring the committed
geometry. -/
theorem commit_undo_redo (env : ToolEnv) (s : EditState) (w : World)
    (id : String) (kind : FeatureKind) (before : Feature)
    (hid : s.selectedId = some id) (hP : id ≠ "")
    (hkind : s.selectedKind = some kind)
    (hmode : s.dragMode ≠ DragMode.none)
    (hbefore : s.dragBeforeFeature = some before)
    (hbid : before.id = id)
    (hsucc :
      (∃ p, kind = FeatureKind.point ∧ s.dragPreviewPosition = some p ∧
        validatePointPosition env.isFinite (some p) = none) ∨
      (∃ ps, kind = FeatureKind.polyline ∧ s.dragPreviewPositions = some ps ∧
        validatePolylinePositions ps = none) ∨
      (∃ ps, kind = FeatureKind.polygon ∧ s.dragPreviewPositions = some ps ∧
        polygonCommitError env ps = none)) :
    ∃ after : Feature,
      after.id = id ∧
      (leftUp env s w).2.stack.done = w.stack.done ++ [Command.update id before after] ∧
      (leftUp env s w).2.stack.undone = [] ∧
      (leftUp env s w).2.store = storeUpsert w.store after ∧
      storeGet ((leftUp env s w).2.undo).store id = some before ∧
      storeGet (((leftUp env s w).2.undo).redo).store id = some after := by
  have hguard : ¬(s.dragMode = DragMode.none ∨ id = "") := by
    rintro (h | h)
    · exact hmode h
    · exact hP h
  have hpush : ∀ (after : Feature), after.id = id →
      (w.push (Command.update id before after)).stack.done =
          w.stack.done ++ [Command.update id before after] ∧
      (w.push (Command.update id before after)).stack.undone = [] ∧
      (w.push (Command.update id before after)).store = storeUpsert w.store after ∧
      storeGet ((w.push (Command.update id before after)).undo).store id = some before ∧
      storeGet (((w.push (Command.update id before after)).undo).redo).store id =
        some after := by
    intro after haid
    have hundo : (w.push (Command.update id before after)).undo =
        { store := storeUpsert (storeUpsert w.store after) before
          stack := { done := w.stack.done, undone := [Command.update id before after] }
          notices := w.notices } := by
      unfold World.undo World.push
      dsimp only
      rw [List.getLast?_concat]
      dsimp only [Command.undoEffect, Command.doEffect]
      rw [List.dropLast_concat, List.nil_append]
    have hredo : ((w.push (Command.update id before after)).undo).redo =
        { store := storeUpsert (storeUpsert (storeUpsert w.store after) before) after
          stack := { done := w.stack.done ++ [Command.update id before after], undone := [] }
          notices := w.notices } := by
      rw [hundo]
      unfold World.redo
      dsimp only [Command.doEffect]
      rfl
    refine ⟨rfl, rfl, rfl, ?_, ?_⟩
    · rw [hundo]
      dsimp only
      rw [← hbid]
      exact storeGet_upsert_self _ before
    · rw [hredo]
      dsimp only
      rw [← haid]
      exact storeGet_upsert_self _ after
  unfold leftUp
  rw [hid, hkind]
  dsimp only
  rw [if_neg hguard, hbefore]
  rcases hsucc with ⟨p, hk, hprev, hval⟩ | ⟨ps, hk, hprev, hval⟩ | ⟨ps, hk, hprev, hval⟩
  · subst hk
    dsimp only
    rw [hprev]
    dsimp only
    rw [hval]
    refine ⟨{ before with id := id, geometry := .point p, meta := metaTouch env before.meta },
      rfl, ?_⟩
    rw [snapshotFeature_eq]
    exact hpush _ rfl
  · subst hk
    dsimp only
    rw [hprev]
    dsimp only
    rw [hval]
    dsimp only
    rw [if_neg (by decide : ¬(FeatureKind.polyline = FeatureKind.polygon))]
    refine ⟨{ before with
                id := id
                geometry := FeatGeometry.polylineGeom ps
                meta := metaTouch env before.meta },
      rfl, ?_⟩
    rw [snapshotFeature_eq]
    exact hpush _ rfl
  · subst hk
    dsimp only
    rw [hprev]
    dsimp only
    rw [hval]
    dsimp only
    rw [if_pos rfl]
    refine ⟨{ before with
                id := id
                geometry := FeatGeometry.polygonGeom ps
                meta := metaTouch env before.meta },
      rfl, ?_⟩
    rw [snapshotFeature_eq]
    exact hpush _ rfl

/-- A mid-vertex-drag state whose live preview is a valid polyline. -/
def sDragGood : EditState :=
  { sDragBad with dragPreviewPositions := some [⟨0, 0, 0⟩, ⟨2, 0, 0⟩] }

theorem commit_undo_redo_witness :
    ∃ after : Feature,
      after.id = "f" ∧
      (leftUp envT sDragGood wDrag).2.stack.done =
        wDrag.stack.done ++ [Command.update "f" beforeLine after] ∧
      (leftUp envT sDragGood wDrag).2.stack.undone = [] ∧
      (leftUp envT sDragGood wDrag).2.store = storeUpsert wDrag.store after ∧
      storeGet ((leftUp envT sDragGood wDrag).2.undo).store "f" = some beforeLine ∧
      storeGet (((leftUp envT sDragGood wDrag).2.undo).redo).store "f" = some after := by
  have hval : validatePolylinePositions [(⟨0, 0, 0⟩ : Cartesian3), ⟨2, 0, 0⟩] = none := by
    unfold validatePolylinePositions cartesian3EqualsEpsilon mathEqualsEpsilon
    norm_num
  exact commit_undo_redo envT sDragGood wDrag "f" .polyline beforeLine rfl (by decide)
    rfl (by decide) rfl rfl
    (Or.inr (Or.inl ⟨[⟨0, 0, 0⟩, ⟨2, 0, 0⟩], rfl, rfl, hval⟩))

/-- C6 (evidence of the code defect): the `keydown` Escape handler only
calls `deselect()`.  Mid-drag, this leaves the drag mode unchanged (not
`none`), leaves the camera interaction suspended, does not upsert the
`before` snapshot, and touches neither store nor stack — the transaction is
not cancelled, contrary to the specified Escape behaviour. -/
theorem escape_mid_drag_keeps_drag_state (s : EditState) (w : World)
    (hmode : s.dragMode ≠ DragMode.none) (hcam : s.cameraLocked = true) :
    (escapeKeydown s w).1.dragMode = s.dragMode ∧
    (escapeKeydown s w).1.dragMode ≠ DragMode.none ∧
    (escapeKeydown s w).1.cameraLocked = true ∧
    (escapeKeydown s w).2 = w :=
  ⟨rfl, hmode, hcam, rfl⟩

theorem escape_mid_drag_keeps_drag_state_witness :
    (escapeKeydown sDragBad wDrag).1.dragMode = sDragBad.dragMode ∧
    (escapeKeydown sDragBad wDrag).1.dragMode ≠ DragMode.none ∧
    (escapeKeydown sDragBad wDrag).1.cameraLocked = true ∧
    (escapeKeydown sDragBad wDrag).2 = wDrag :=
  escape_mid_drag_keeps_drag_state sDragBad wDrag (by decide) rfl

/-- C7 (evidence of the code defect): whenever the engine yields a result,
`FeatureEditTool.snapWithEngine` returns the `SnapCandidate` record itself —
never a world position — so the callers' vector arithmetic
(`Cartesian3.subtract(snapped, anchor)` in the translate branch) operates on
a non-vector.  Only in the no-candidate case does it return the raw world
position, which is the claimed fallback. -/
theorem snapWithEngine_returns_candidate_record (snapFn : Cartesian3 → Option SnapResult)
    (world : Cartesian3) :
    (∀ res : SnapResult, snapFn world = some res →
      FeatureEditTool.snapWithEngine snapFn world =
        SnapWithEngineResult.candidateObj res.candidate ∧
      ∀ v : Cartesian3,
        FeatureEditTool.snapWithEngine snapFn world ≠ SnapWithEngineResult.worldPos v) ∧
    (snapFn world = none →
      FeatureEditTool.snapWithEngine snapFn world = SnapWithEngineResult.worldPos world) := by
  constructor
  · intro res hres
    unfold FeatureEditTool.snapWithEngine
    rw [hres]
    exact ⟨rfl, fun v h => by cases h⟩
  · intro hnone
    unfold FeatureEditTool.snapWithEngine
    rw [hnone]

theorem snapWithEngine_returns_candidate_record_witness :
    FeatureEditTool.snapWithEngine (fun _ => some ⟨candW⟩) ⟨0, 0, 0⟩ =
      SnapWithEngineResult.candidateObj candW ∧
    ∀ v : Cartesian3,
      FeatureEditTool.snapWithEngine (fun _ => some ⟨candW⟩) ⟨0, 0, 0⟩ ≠
        SnapWithEngineResult.worldPos v :=
  (snapWithEngine_returns_candidate_record (fun _ => some ⟨candW⟩) ⟨0, 0, 0⟩).1 ⟨candW⟩ rfl

/-- C9: both segment primitives are total and take the degenerate branch
without dividing: a zero-length 2D segment (`a = b`) yields the distance to
the endpoint `a` with parameter `t = 0` and projection `a`; a 3D segment
whose squared length is at most `1e-12` yields the endpoint `a` with
`t = 0`. -/
theorem degenerate_segment_endpoint (hyp : ℚ → ℚ → ℚ) (p a b : Cartesian2)
    (q c d : Cartesian3) (h2 : a = b)
    (h3 : (d.sub c).dot (d.sub c) ≤ 1 / 10 ^ 12) :
    distancePointToSegment2D hyp p a b =
      { dist := hyp (p.x - a.x) (p.y - a.y), t := 0, proj := a } ∧
    closestPointOnSegment3D q c d = { point := c, t := 0 } := by
  constructor
  · subst h2
    unfold distancePointToSegment2D
    simp
  · unfold closestPointOnSegment3D
    dsimp only
    rw [if_pos h3]

theorem degenerate_segment_endpoint_witness :
    distancePointToSegment2D (fun x y => x + y) ⟨5, 7⟩ ⟨1, 2⟩ ⟨1, 2⟩ =
      { dist := (5 - 1) + (7 - 2), t := 0, proj := ⟨1, 2⟩ } ∧
    closestPointOnSegment3D ⟨1, 1, 1⟩ ⟨4, 4, 4⟩ ⟨4, 4, 4⟩ =
      { point := ⟨4, 4, 4⟩, t := 0 } :=
  degenerate_segment_endpoint (fun x y => x + y) ⟨5, 7⟩ ⟨1, 2⟩ ⟨1, 2⟩
    ⟨1, 1, 1⟩ ⟨4, 4, 4⟩ ⟨4, 4, 4⟩ rfl
    (by unfold Cartesian3.sub Cartesian3.dot; norm_num)

/-- C8: deleting the active vertex of a polygon currently holding at most 3
vertices (or of a polyline holding at most 2 points) is rejected with no
state change at all — no command, no store write, no stack change; when the
count is above the minimum and the reduced geometry validates, exactly one
`UpdateFeatureCommand` is pushed whose after-state is the geometry with the
active vertex removed.  (`id ≠ ""` because the keyboard path only invokes
deletion under a truthy selected id.) -/
theorem deleteActiveVertex_spec (env : ToolEnv) (s : EditState) (w : World)
    (id : String) (k : Nat)
    (hid : s.selectedId = some id) (hP : id ≠ "")
    (hk : s.activeHandleIndex = some k) :
    (∀ feat positions, s.selectedKind = some FeatureKind.polygon →
      storeGetPolygon w.store id = some (feat, positions) →
      positions.length ≤ 3 → deleteActiveVertex env s w = (s, w)) ∧
    (∀ feat positions, s.selectedKind = some FeatureKind.polygon →
      storeGetPolygon w.store id = some (feat, positions) →
      3 < positions.length →
      (validatePolygonPositions env.toLonLat (removeAtIndex positions k)).ok = true →
      deleteActiveVertex env s w =
        ({ s with activeHandleIndex := none },
         w.push (Command.update id feat
           { feat with
               geometry := .polygonGeom (removeAtIndex positions k)
               meta := metaTouch env feat.meta }))) ∧
    (∀ feat positions, s.selectedKind = some FeatureKind.polyline →
      storeGetPolyline w.store id = some (feat, positions) →
      positions.length ≤ 2 → deleteActiveVertex env s w = (s, w)) ∧
    (∀ feat positions, s.selectedKind = some FeatureKind.polyline →
      storeGetPolyline w.store id = some (feat, positions) →
      2 < positions.length →
      validatePolylinePositions (removeAtIndex positions k) = none →
      deleteActiveVertex env s w =
        ({ s with activeHandleIndex := none },
         w.push (Command.update id feat
           { feat with
               geometry := .polylineGeom (removeAtIndex positions k)
               meta := metaTouch env feat.meta }))) := by
  refine ⟨?_, ?_, ?_, ?_⟩
  · intro feat positions hkind hgot hlen
    unfold deleteActiveVertex
    rw [hid, hkind, hk]
    dsimp only
    rw [if_neg hP, hgot]
    dsimp only
    rw [if_pos hlen]
  · intro feat positions hkind hgot hlen hok
    unfold deleteActiveVertex
    rw [hid, hkind, hk]
    dsimp only
    rw [if_neg hP, hgot]
    dsimp only
    rw [if_neg (not_le.mpr hlen), if_pos hok, snapshotFeature_eq, snapshotFeature_eq]
  · intro feat positions hkind hgot hlen
    unfold deleteActiveVertex
    rw [hid, hkind, hk]
    dsimp only
    rw [if_neg hP, hgot]
    dsimp only
    rw [if_pos hlen]
  · intro feat positions hkind hgot hlen hval
    unfold deleteActiveVertex
    rw [hid, hkind, hk]
    dsimp only
    rw [if_neg hP, hgot]
    dsimp only
    rw [if_neg (not_le.mpr hlen), hval]
    dsimp only
    rw [snapshotFeature_eq, snapshotFeature_eq]

/-- A committed triangle (minimum-size polygon). -/
def triFeat : Feature :=
  { id := "t", geometry := .polygonGeom [⟨0, 0, 0⟩, ⟨1, 0, 0⟩, ⟨0, 1, 0⟩], meta := none }

/-- Selection state with an active handle on the triangle. -/
def sTri : EditState :=
  { selectedId := some "t", selectedKind := some .polygon, activeHandleIndex := some 0,
    dragMode := .none, dragIndex := none,
    dragBeforePositions := none, dragBeforePosition := none,
    dragBeforeFeature := none, dragStartAnchor := none,
    dragPreviewPositions := none, dragPreviewPosition := none,
    cameraLocked := false }

/-- World holding only the triangle. -/
def wTri : World :=
  { store := [triFeat], stack := ⟨[], []⟩, notices := [] }

theorem deleteActiveVertex_spec_witness :
    deleteActiveVertex envT sTri wTri = (sTri, wTri) := by
  have h := (deleteActiveVertex_spec envT sTri wTri "t" 0 rfl (by decide) rfl).1
  exact h triFeat [⟨0, 0, 0⟩, ⟨1, 0, 0⟩, ⟨0, 1, 0⟩] rfl
    (by simp [storeGetPolygon, storeGet, wTri, triFeat]) (by decide)

/-- C10: any ring of at least 3 points containing a cyclically-adjacent pair
of vertices whose longitudes and latitudes agree within `1e-12` degrees
fails `validatePolygonPositions` with a `DUPLICATE_VERTEX` issue;
consequently a drag-commit whose preview contains such a zero-length edge is
rejected and rolled back by the `LEFT_UP` handler — the code resolves the
open question about coincident adjacent vertices toward rejection. -/
theorem duplicate_vertex_rejected (env : ToolEnv) (ps : List Cartesian3)
    (hlen : 3 ≤ ps.length)
    (hdup : ∃ i ∈ List.range (ps.map env.toLonLat).length,
      dupAt (ps.map env.toLonLat) i = true) :
    (validatePolygonPositions env.toLonLat ps).ok = false ∧
    (∃ issue ∈ (validatePolygonPositions env.toLonLat ps).issues,
      issue.code = IssueCode.DUPLICATE_VERTEX) ∧
    (∀ (s : EditState) (w : World) (id : String) (before : Feature),
      s.selectedId = some id → id ≠ "" →
      s.selectedKind = some FeatureKind.polygon →
      s.dragMode ≠ DragMode.none →
      s.dragBeforeFeature = some before →
      s.dragPreviewPositions = some ps →
      storeGet w.store before.id = some before →
      (w.store.map Feature.id).Nodup →
      (leftUp env s w).2.store = w.store ∧
      (leftUp env s w).2.stack = w.stack ∧
      (leftUp env s w).1.dragMode = DragMode.none) := by
  have hfind : (firstDupIndex (ps.map env.toLonLat)).isSome := by
    unfold firstDupIndex
    rw [List.find?_isSome]
    exact hdup
  obtain ⟨j, hj⟩ := Option.isSome_iff_exists.mp hfind
  have hnotlt : ¬ps.length < 3 := not_lt.mpr hlen
  have hmain : (validatePolygonPositions env.toLonLat ps).ok = false ∧
      ∃ issue ∈ (validatePolygonPositions env.toLonLat ps).issues,
        issue.code = IssueCode.DUPLICATE_VERTEX := by
    unfold validatePolygonPositions
    rw [if_neg hnotlt]
    dsimp only
    rw [hj]
    cases hint : firstIntersection (ps.map env.toLonLat) with
    | some pr =>
      refine ⟨rfl, ⟨.DUPLICATE_VERTEX, "存在重复顶点（相邻点重合）。"⟩, ?_, rfl⟩
      exact List.mem_append_left _ (List.mem_singleton_self _)
    | none =>
      exact ⟨rfl, ⟨.DUPLICATE_VERTEX, "存在重复顶点（相邻点重合）。"⟩,
        List.mem_singleton_self _, rfl⟩
  refine ⟨hmain.1, hmain.2, ?_⟩
  intro s w id before hid hP hkind hmode hbefore hprev hget hnodup
  have hcerr : polygonCommitError env ps = some
      (((((validatePolygonPositions env.toLonLat ps).issues).head?).map
        ValidationIssue.message).getD "几何校验失败") := by
    unfold polygonCommitError
    rw [if_neg (by rw [hmain.1]; exact Bool.false_ne_true)]
  obtain ⟨hdrag, -, -, hstore, hstack, -⟩ :=
    leftUp_reject_of_invalid env s w id FeatureKind.polygon before _ hid hP hkind hmode
      hbefore hget hnodup (Or.inr (Or.inr ⟨ps, rfl, hprev, hcerr⟩))
  exact ⟨hstore, hstack, hdrag⟩

/-- A ring with two coincident adjacent vertices. -/
def dupRing : List Cartesian3 :=
  [⟨0, 0, 0⟩, ⟨0, 0, 0⟩, ⟨1, 0, 0⟩]

theorem duplicate_vertex_rejected_witness :
    (validatePolygonPositions envT.toLonLat dupRing).ok = false ∧
    (∃ issue ∈ (validatePolygonPositions envT.toLonLat dupRing).issues,
      issue.code = IssueCode.DUPLICATE_VERTEX) := by
  have hdup : ∃ i ∈ List.range (dupRing.map envT.toLonLat).length,
      dupAt (dupRing.map envT.toLonLat) i = true := by
    refine ⟨0, by simp [dupRing], ?_⟩
    unfold dupAt almostEq
    norm_num [dupRing, envT]
  have h := duplicate_vertex_rejected envT dupRing (by norm_num [dupRing]) hdup
  exact ⟨h.1, h.2.1⟩

end CesiumDraw
